import Mathlib

/-!
# Verification of the OddsPortal encrypted-odds pipeline

A shallow embedding, in Lean 4, of the decryption and market-decoding code of
`odds_scraper/spiders/odds_portal/parser.py` (the function
`decrypt_data_PBKDF2HMAC`) and
`odds_scraper/spiders/odds_portal/utils/match_event_parser.py`
(`parse_match_event_odds`, `_parse_market`, `_parse_outcomes`,
`_parse_outcome`, `_parse_odds_entry`), together with the item/loader
declarations of `odds_scraper/items/odds_portal/items.py`.

Modelling conventions:

* Decoded JSON values are the inductive `Json` below.  Python `None` and the
  JSON `null` produced by `json.loads` are the same runtime value, so both are
  `Json.null`.  JSON numbers are modelled as exact rationals `ℚ`; Python keeps
  `int` and `float` apart, but the only operation in the embedded code that can
  observe the difference is `str()` formatting of a number (the distinction
  never affects equality tests, truthiness, dict lookups or arithmetic used
  here), and no verified property depends on that formatting.
* Python dictionaries are association lists `List (String × Json)` in
  insertion order (the iteration order of a Python `dict`); lookups take the
  first (unique) matching key.  The one `set` in the embedded code
  (`all_bookmaker_ids`) has unspecified iteration order in Python; it is
  modelled as first-occurrence order.  Every property proved below is
  insensitive to that order.
* Exceptions are an `Except PyErr` monad.  `PyErr.invalidResponseStatus` is
  the one `raise ValueError("Invalid response status: ...")` site of the
  parser (distinguishable from conversion `ValueError`s by its message);
  `PyErr.valueError` covers `int()`/`float()` conversion failures;
  `attributeError`, `typeError`, `indexError` and `keyError` model the
  corresponding Python exception types.
* Scrapy `ItemLoader` semantics, modelled per the `itemloaders` package:
  `add_value(f, v)` turns `v` into a list (`None ↦ []`, a list stays itself,
  a scalar or dict becomes a one-element list), maps the `MapCompose` input
  functions over it (a function returning `None` drops the element, a raised
  exception propagates) and collects the non-empty result; `load_item`
  applies `TakeFirst` output processors (first value that is neither `None`
  nor `''`), and fields without an output processor keep the collected list.
  An item field that never collected a value is left unset — modelled as
  `none` / `[]`.  Looking up the input processor of a field name that is not
  declared on the item class raises `KeyError(field_name)` (both the
  historical `scrapy.loader` and the current `itemloaders`/`itemadapter`
  implementations index `item.fields[field_name]`); this matters because
  `parse_match_event_odds` calls `loader.add_value('is_started', ...)` while
  `MatchEventOddsItem` declares no `is_started` field.
* `datetime.fromtimestamp(t)` is modelled as the timestamp `t` itself (an
  exact rational); no verified property inspects the converted value beyond
  which entries convert successfully.
-/

namespace OddsPortal

/-- A decoded JSON value, as produced by `json.loads`.  `null` also stands for
the Python value `None`. -/
inductive Json where
  | null
  | bool (b : Bool)
  | num (q : ℚ)
  | str (s : String)
  | arr (elems : List Json)
  | obj (fields : List (String × Json))
deriving Inhabited

/-- Python exception kinds raised by the embedded code.  The status-check
`ValueError` of `parse_match_event_odds` carries a distinctive message and is
kept apart from conversion `ValueError`s. -/
inductive PyErr where
  | invalidResponseStatus
  | valueError
  | typeError
  | attributeError
  | indexError
  | keyError (field : String)
deriving Repr, DecidableEq

/-- Whether a value is the JSON `null` / Python `None`. -/
def Json.isNull : Json → Bool
  | .null => true
  | _ => false

mutual
/-- Debug rendering of a decoded value. -/
def jsonToString : Json → String
  | .null => "null"
  | .bool b => if b then "true" else "false"
  | .num q => toString q
  | .str s => "\"" ++ s ++ "\""
  | .arr es => "[" ++ jsonListToString es ++ "]"
  | .obj fs => "(obj " ++ jsonObjToString fs ++ ")"

/-- Debug rendering of a list of decoded values. -/
def jsonListToString : List Json → String
  | [] => ""
  | [x] => jsonToString x
  | x :: xs => jsonToString x ++ ", " ++ jsonListToString xs

/-- Debug rendering of object members. -/
def jsonObjToString : List (String × Json) → String
  | [] => ""
  | [(k, v)] => "\"" ++ k ++ "\": " ++ jsonToString v
  | (k, v) :: xs => "\"" ++ k ++ "\": " ++ jsonToString v ++ ", " ++ jsonObjToString xs
end

instance : Repr Json where
  reprPrec j _ := .text (jsonToString j)

/-- Python truthiness of a decoded value (`bool(x)`). -/
def pyTruthy : Json → Bool
  | .null => false
  | .bool b => b
  | .num q => decide (q ≠ 0)
  | .str s => decide (s ≠ "")
  | .arr es => !es.isEmpty
  | .obj fs => !fs.isEmpty

/-- First-match association-list lookup: Python `dict[k]` / `dict.get(k)` on a
string key (insertion-ordered dict with unique keys). -/
def objLookup (fs : List (String × Json)) (k : String) : Option Json :=
  match fs with
  | [] => none
  | (k', v) :: rest => if k' = k then some v else objLookup rest k

/-- `d.get(k)` — `AttributeError` when the receiver is not a dict. -/
def pyGetOpt (j : Json) (k : String) : Except PyErr (Option Json) :=
  match j with
  | .obj fs => .ok (objLookup fs k)
  | _ => .error .attributeError

/-- `d.get(k, default)` — `AttributeError` when the receiver is not a dict. -/
def pyGetD (j : Json) (k : String) (d : Json) : Except PyErr Json :=
  match j with
  | .obj fs => .ok ((objLookup fs k).getD d)
  | _ => .error .attributeError

/-- `d.items()` — `AttributeError` on a non-dict. -/
def pyItems (j : Json) : Except PyErr (List (String × Json)) :=
  match j with
  | .obj fs => .ok fs
  | _ => .error .attributeError

/-- `d.keys()` as a list — `AttributeError` on a non-dict. -/
def pyKeys (j : Json) : Except PyErr (List String) :=
  match j with
  | .obj fs => .ok (fs.map Prod.fst)
  | _ => .error .attributeError

/-- `d.values()` as a list — `AttributeError` on a non-dict. -/
def pyValues (j : Json) : Except PyErr (List Json) :=
  match j with
  | .obj fs => .ok (fs.map Prod.snd)
  | _ => .error .attributeError

mutual
/-- Structural equality of decoded values (used only where the embedded code
compares containers, a path no verified property exercises; Python's
order-insensitive dict `==` is approximated order-sensitively there). -/
def jsonBeq : Json → Json → Bool
  | .null, .null => true
  | .bool a, .bool b => a = b
  | .num a, .num b => a = b
  | .str a, .str b => a = b
  | .arr a, .arr b => jsonListBeq a b
  | .obj a, .obj b => jsonObjBeq a b
  | _, _ => false

/-- Pointwise `jsonBeq` on lists. -/
def jsonListBeq : List Json → List Json → Bool
  | [], [] => true
  | a :: as', b :: bs => jsonBeq a b && jsonListBeq as' bs
  | _, _ => false

/-- Pointwise `jsonBeq` on object member lists. -/
def jsonObjBeq : List (String × Json) → List (String × Json) → Bool
  | [], [] => true
  | (k, v) :: r, (k', v') :: r' => k = k' && jsonBeq v v' && jsonObjBeq r r'
  | _, _ => false
end

/-- Python equality (`==`) of two decoded values as far as the embedded code
needs it: numbers and booleans compare by numeric value (`True == 1`),
strings by content, `None` only to itself; mixed scalar types are unequal.
Containers fall back to structural equality (see `jsonBeq`). -/
def pyEq (a b : Json) : Bool :=
  match a, b with
  | .null, .null => true
  | .bool x, .bool y => x = y
  | .bool x, .num q => (if x then (1 : ℚ) else 0) = q
  | .num q, .bool x => q = (if x then (1 : ℚ) else 0)
  | .num x, .num y => x = y
  | .str x, .str y => x = y
  | .arr _, _ | .obj _, _ | _, .arr _ | _, .obj _ => jsonBeq a b
  | _, _ => false

/-- Substring test on character lists (Python `sub in s` for strings). -/
def isSubstr (sub : List Char) : List Char → Bool
  | [] => sub.isEmpty
  | c :: rest => sub.isPrefixOf (c :: rest) || isSubstr sub rest

/-- `x in c` (membership).  Dict membership tests `x` against the (string)
keys; list membership uses Python equality; string membership is a substring
test; anything else raises `TypeError`. -/
def pyContains (c : Json) (x : Json) : Except PyErr Bool :=
  match c with
  | .obj fs => .ok (fs.any fun kv => pyEq x (.str kv.1))
  | .arr es => .ok (es.any fun e => pyEq x e)
  | .str s =>
    match x with
    | .str sub => .ok (isSubstr sub.data s.data)
    | _ => .error .typeError
  | _ => .error .typeError

/-- An integer subscript: Python accepts ints and bools as sequence indices. -/
def pyIndexOf (x : Json) : Option Int :=
  match x with
  | .num q => if q.den = 1 then some q.num else none
  | .bool b => some (if b then 1 else 0)
  | _ => none

/-- Sequence subscription with Python's negative-index rule. -/
def pyListIndex (es : List Json) (i0 : Int) : Except PyErr Json :=
  let i : Int := if i0 < 0 then i0 + es.length else i0
  if 0 ≤ i ∧ i < es.length then .ok (es.getD i.toNat .null) else .error .indexError

/-- `c[x]` (subscription).  Dicts index by key equality (`KeyError` when
missing); lists and strings index by integers, with Python's negative-index
rule (`TypeError` for a non-integer subscript, `IndexError` out of range). -/
def pyGetItem (c : Json) (x : Json) : Except PyErr Json :=
  match c with
  | .obj fs =>
    match fs.find? (fun kv => pyEq x (.str kv.1)) with
    | some kv => .ok kv.2
    | none => .error (.keyError "getitem")
  | .arr es =>
    match pyIndexOf x with
    | some i0 => pyListIndex es i0
    | none => .error .typeError
  | .str s =>
    match pyIndexOf x with
    | some i0 => (pyListIndex (s.data.map fun c => .str (String.singleton c)) i0)
    | none => .error .typeError
  | _ => .error .typeError

/-- Iterating a value (`for x in v`, `list.extend(v)`): a list yields its
elements, a string its characters, a dict its keys; anything else raises
`TypeError`. -/
def pyToIter (j : Json) : Except PyErr (List Json) :=
  match j with
  | .arr es => .ok es
  | .str s => .ok (s.data.map fun c => .str (String.singleton c))
  | .obj fs => .ok (fs.map fun kv => .str kv.1)
  | _ => .error .typeError

/-- `len(v)` — `TypeError` on values without a length. -/
def pyLen (j : Json) : Except PyErr Nat :=
  match j with
  | .arr es => .ok es.length
  | .str s => .ok s.length
  | .obj fs => .ok fs.length
  | _ => .error .typeError

/-- `enumerate(v)` materialised, with Python `for`-unpacking semantics. -/
def enumFrom (n : Nat) : List Json → List (Nat × Json)
  | [] => []
  | x :: xs => (n, x) :: enumFrom (n + 1) xs

/-- `list(enumerate(v))` over an iterable. -/
def pyEnumerate (j : Json) : Except PyErr (List (Nat × Json)) := do
  let xs ← pyToIter j
  pure (enumFrom 0 xs)

/-- `scrapy`'s `arg_to_iter`: `None ↦ []`, a list stays itself, everything
else (scalars, strings, dicts) becomes a one-element list. -/
def pyArgToIter (j : Json) : List Json :=
  match j with
  | .null => []
  | .arr es => es
  | v => [v]

/-- Whether one digit character. -/
def isDigitChar (c : Char) : Bool := '0' ≤ c && c ≤ '9'

/-- Digits of a string folded to a natural number (caller checks they are all
digits). -/
def digitsToNat (cs : List Char) : Nat :=
  cs.foldl (fun acc c => acc * 10 + (c.toNat - '0'.toNat)) 0

/-- Python `int(s)` on a string: optional surrounding spaces, optional sign,
then at least one digit (digit-group underscores are not modelled; no claim
exercises them).  `none` models the raised `ValueError`. -/
def pyIntOfString (s : String) : Option Int :=
  let cs := s.data.dropWhile (· = ' ')
  let cs := (cs.reverse.dropWhile (· = ' ')).reverse
  match cs with
  | '-' :: rest =>
    if rest ≠ [] ∧ rest.all isDigitChar then some (-(digitsToNat rest : Int)) else none
  | '+' :: rest =>
    if rest ≠ [] ∧ rest.all isDigitChar then some (digitsToNat rest : Int) else none
  | rest =>
    if rest ≠ [] ∧ rest.all isDigitChar then some (digitsToNat rest : Int) else none

/-- Python `float(s)` on a string: optional sign, digits with an optional
fractional part and an optional decimal exponent (at least one digit overall;
`inf`/`nan` are not modelled — no claim exercises them).  `none` models the
raised `ValueError`. -/
def pyFloatOfString (s : String) : Option ℚ :=
  let cs := s.data.dropWhile (· = ' ')
  let cs := (cs.reverse.dropWhile (· = ' ')).reverse
  let (sign, cs) :=
    match cs with
    | '-' :: rest => ((-1 : ℚ), rest)
    | '+' :: rest => ((1 : ℚ), rest)
    | rest => ((1 : ℚ), rest)
  let intPart := cs.takeWhile isDigitChar
  let rest₁ := cs.dropWhile isDigitChar
  let (fracPart, rest₂) :=
    match rest₁ with
    | '.' :: r => (r.takeWhile isDigitChar, r.dropWhile isDigitChar)
    | r => ([], r)
  if intPart.isEmpty ∧ fracPart.isEmpty then none
  else
    let mant : ℚ := (digitsToNat intPart : ℚ) +
      (digitsToNat fracPart : ℚ) / ((10 : ℚ) ^ fracPart.length)
    match rest₂ with
    | [] => some (sign * mant)
    | 'e' :: e | 'E' :: e =>
      let (esign, ed) :=
        match e with
        | '-' :: r => (true, r)
        | '+' :: r => (false, r)
        | r => (false, r)
      if ed ≠ [] ∧ ed.all isDigitChar then
        let ex := digitsToNat ed
        some (sign * mant * (if esign then ((10 : ℚ) ^ ex)⁻¹ else (10 : ℚ) ^ ex))
      else none
    | _ => none

/-- Python `int(v)` (uncaught conversions, e.g. `MapCompose(int)` input
processors): floats truncate toward zero, booleans map to 0/1, strings parse
(`ValueError` on failure), everything else raises `TypeError`. -/
def pyIntJ (j : Json) : Except PyErr Int :=
  match j with
  | .num q => .ok (q.num / (q.den : Int))
  | .bool b => .ok (if b then 1 else 0)
  | .str s =>
    match pyIntOfString s with
    | some i => .ok i
    | none => .error .valueError
  | _ => .error .typeError

/-- Python `float(v)` (uncaught): numbers pass through, booleans map to
0.0/1.0, strings parse, everything else raises `TypeError`. -/
def pyFloatJ (j : Json) : Except PyErr ℚ :=
  match j with
  | .num q => .ok q
  | .bool b => .ok (if b then 1 else 0)
  | .str s =>
    match pyFloatOfString s with
    | some q => .ok q
    | none => .error .valueError
  | _ => .error .typeError

/-- Decimal rendering of a rational whose denominator divides a power of ten
(every Python float is such), used by `str()` on numbers.  Fuel-bounded digit
extraction; 40 digits cover every value reachable from a double. -/
def fracDigits : Nat → Nat → Nat → List Char
  | 0, _, _ => []
  | _, 0, _ => []
  | fuel + 1, rem, den =>
    let d := rem * 10 / den
    Char.ofNat ('0'.toNat + d % 10) :: fracDigits fuel (rem * 10 % den) den

/-- Python `str()` of a decoded value, to the extent the embedded code uses it
(building dict-lookup keys and `Unknown_...` labels).  Integral numbers render
exactly as Python ints do; other numbers render as a decimal expansion
(`str(float)`'s shortest-repr refinement is not modelled — no verified
property inspects a non-integral rendering). -/
def pyStrJ : Json → String
  | .null => "None"
  | .bool b => if b then "True" else "False"
  | .num q =>
    if q.den = 1 then toString q.num
    else
      let sign := if q.num < 0 then "-" else ""
      let a := q.num.natAbs
      sign ++ toString (a / q.den) ++ "." ++ String.mk (fracDigits 40 (a % q.den) q.den)
  | .str s => s
  | .arr _ => "[...]"
  | .obj _ => "{...}"

/-- `str(v)` where `v` may be the Python `None` of a missing `.get` (the code
interpolates such raw values into f-strings and lookup keys). -/
def pyStrOpt : Option Json → String
  | none => "None"
  | some v => pyStrJ v

/-- `odds_response.get('s') != 1` is false exactly here: Python `==` rates
`1`, `1.0` and `True` equal to `1`. -/
def pyEqOne : Option Json → Bool
  | some (.num q) => q = 1
  | some (.bool b) => b
  | _ => false

/-- `handicap_type_id == 0` with Python `==` (`0`, `0.0` and `False` qualify). -/
def pyEqZeroOpt : Option Json → Bool
  | some (.num q) => q = 0
  | some (.bool b) => !b
  | _ => false

/-! ## Items (`items/odds_portal/items.py`)

Item fields hold the value the loader's output processor produced; a field
that never collected a value is `none` (scalar fields, which use `TakeFirst`)
or `[]` (list fields, which have no output processor and keep the collected
list — an empty collection leaves the field unset, which the embedding
identifies with `[]`). -/

/-- `convert_odds_value` of `items.py`: `float(value)` with `ValueError` and
`TypeError` caught to `None` (and `None` passed through as `None`). -/
def convert_odds_value : Json → Option ℚ
  | .null => none
  | .num q => some q
  | .bool b => some (if b then 1 else 0)
  | .str s => pyFloatOfString s
  | _ => none

/-- `convert_volume` of `items.py`: `int(value)` with errors caught to
`None`. -/
def convert_volume : Json → Option Int
  | .null => none
  | .num q => some (q.num / (q.den : Int))
  | .bool b => some (if b then 1 else 0)
  | .str s => pyIntOfString s
  | _ => none

/-- `convert_unix_timestamp` of `items.py`: numbers (bools included —
`isinstance(True, int)`) become datetimes, modelled as the raw timestamp;
everything else becomes `None`. -/
def convert_unix_timestamp : Json → Option ℚ
  | .num q => some q
  | .bool b => some (if b then 1 else 0)
  | _ => none

/-- `OddsItem`: one `[odds_value, volume, timestamp]` entry after loading. -/
structure OddsItem where
  odds_value : Option ℚ
  volume : Option Int
  timestamp : Option ℚ
deriving Repr

/-- `OutcomeItem`: odds of one outcome from one bookmaker. -/
structure OutcomeItem where
  bookmaker_id : Option String
  bookmaker_name : Option Json
  outcome_id : Option Json
  outcome_position : Option Nat
  outcome_type : Option String
  odds_history : List OddsItem
deriving Repr

/-- `MarketItem`: one market of one side (back or lay). -/
structure MarketItem where
  betting_type_id : Option Int
  betting_type_name : Option Json
  scope_id : Option Int
  scope_name : Option Json
  handicap_type_id : Option Int
  handicap_type_name : Option Json
  handicap_value : Option ℚ
  mixed_parameter_id : Option Int
  mixed_parameter_name : Option Json
  is_back : Option Bool
  outcome_ids : List Json
  outcomes : List OutcomeItem
deriving Repr

/-- `MatchEventOddsItem`: the top-level aggregate.  Note that the item class
declares no `is_started` field — see `parseMatchEventOdds`. -/
structure MatchEventOddsItem where
  match_id : Option String
  encoded_event_id : Option Json
  current_betting_type : Option Json
  current_scope : Option Json
  time_base : Option ℚ
  refresh_interval : Option Int
  available_markets : Option Json
  broken_parsers : List Json
  back_markets : List MarketItem
  lay_markets : List MarketItem
deriving Repr

/-- Scrapy item truthiness: an item with at least one set field. -/
def oddsTruthy (o : OddsItem) : Bool :=
  o.odds_value.isSome || o.volume.isSome || o.timestamp.isSome

/-- Scrapy item truthiness for outcomes. -/
def outcomeTruthy (o : OutcomeItem) : Bool :=
  o.bookmaker_id.isSome || o.bookmaker_name.isSome || o.outcome_id.isSome ||
    o.outcome_position.isSome || o.outcome_type.isSome || !o.odds_history.isEmpty

/-- Scrapy item truthiness for markets. -/
def marketTruthy (m : MarketItem) : Bool :=
  m.betting_type_id.isSome || m.betting_type_name.isSome || m.scope_id.isSome ||
    m.scope_name.isSome || m.handicap_type_id.isSome || m.handicap_type_name.isSome ||
    m.handicap_value.isSome || m.mixed_parameter_id.isSome || m.mixed_parameter_name.isSome ||
    m.is_back.isSome || !m.outcome_ids.isEmpty || !m.outcomes.isEmpty

/-- `TakeFirst` on a single collected raw value: the field stays unset when
the value is `None` (skipped at `add_value`) or `''` (skipped by
`TakeFirst`). -/
def scalarOut (v : Json) : Option Json :=
  match v with
  | .null => none
  | .str "" => none
  | v => some v

/-- `add_value` of a raw value into a list field (no output processor):
`arg_to_iter` semantics. -/
def listOut (v : Json) : List Json := pyArgToIter v

/-- `MapCompose(int)` + `TakeFirst` on an optional raw value (conversion
exceptions propagate). -/
def intFieldOut (v : Option Json) : Except PyErr (Option Int) :=
  match v with
  | none => .ok none
  | some x => do pure (some (← pyIntJ x))

/-- `MapCompose(float)` + `TakeFirst` on an optional raw value. -/
def floatFieldOut (v : Option Json) : Except PyErr (Option ℚ) :=
  match v with
  | none => .ok none
  | some x => do pure (some (← pyFloatJ x))

/-- `OUTCOME_TYPE_MAP` of `items.py`: position → semantic outcome label,
keyed by betting-type id. -/
def OUTCOME_TYPE_MAP : List (Int × List (Nat × String)) :=
  [ (1, [(0, "home"), (1, "draw"), (2, "away")]),
    (2, [(0, "under"), (1, "over")]),
    (3, [(0, "home"), (1, "away")]),
    (4, [(0, "1x"), (1, "12"), (2, "x2")]),
    (5, [(0, "home"), (1, "away")]),
    (6, [(0, "home"), (1, "away")]),
    (7, [(0, "home"), (1, "away")]),
    (8, []),
    (9, []),
    (10, [(0, "odd"), (1, "even")]),
    (11, []),
    (12, [(0, "home"), (1, "draw"), (2, "away")]),
    (13, [(0, "no"), (1, "yes")]) ]

/-- A raw `bettingTypeId` value matched against an integer dict key, with
Python `==`/hashing semantics (`1`, `1.0` and `True` all hit key `1`). -/
def pyIntKeyMatches (v : Option Json) (k : Int) : Bool :=
  match v with
  | some (.num q) => q = (k : ℚ)
  | some (.bool b) => (if b then (1 : Int) else 0) = k
  | _ => false

/-- Outcome-type resolution of `_parse_outcome` (lines 303–306):
`OUTCOME_TYPE_MAP.get(betting_type_id, {}).get(position, f"outcome_{position}")`.
Total — never raises. -/
def resolveOutcomeType (btidRaw : Option Json) (pos : Nat) : String :=
  let tbl :=
    match OUTCOME_TYPE_MAP.find? (fun kv => pyIntKeyMatches btidRaw kv.1) with
    | some kv => kv.2
    | none => []
  match tbl.find? (fun pv => pv.1 = pos) with
  | some pv => pv.2
  | none => "outcome_" ++ toString pos

/-! ## The parser (`utils/match_event_parser.py`) -/

/-- The naming tables and match state handed to `MatchEventOddsParser`
(`None` table arguments default to `{}`). -/
structure ParserParams where
  bookmaker_names : List (String × Json) := []
  betting_type_names : List (String × Json) := []
  scope_names : List (String × Json) := []
  handicap_names : List (String × Json) := []
  is_started : Bool := false

/-- `_parse_odds_entry` (lines 320–341): re-checks the length, reads the
first three elements and runs the `OddsLoader` converters.  The converters
catch their own errors, so the function's `except (ValueError, TypeError,
IndexError)` branch is unreachable; a `KeyError` from subscripting a dict
entry is not caught and propagates. -/
def parseOddsEntry (e : Json) : Except PyErr (Option OddsItem) := do
  let n ← pyLen e
  if n < 3 then pure none
  else do
    let e0 ← pyGetItem e (.num 0)
    let e1 ← pyGetItem e (.num 1)
    let e2 ← pyGetItem e (.num 2)
    pure (some ⟨convert_odds_value e0, convert_volume e1, convert_unix_timestamp e2⟩)

/-- The history-entry loop body of `_parse_outcome` (lines 310–314): parse
entries of length ≥ 3, keep the non-empty loaded items. -/
def oddsEntryStep (acc : List OddsItem) (e : Json) : Except PyErr (List OddsItem) := do
  let n ← pyLen e
  if n ≥ 3 then do
    let oi? ← parseOddsEntry e
    match oi? with
    | some oi => if oddsTruthy oi then pure (acc ++ [oi]) else pure acc
    | none => pure acc
  else pure acc

/-- `_parse_outcome` (lines 276–318): builds one `OutcomeItem` for a
bookmaker/outcome pair, filtering history entries shorter than 3 and entries
whose loaded item is empty.  Returns `none` (Python `None`) only when the
whole `odds_history` argument is falsy. -/
def parseOutcome (bn : List (String × Json)) (bid : String) (oid : Json) (pos : Nat)
    (btidRaw : Option Json) (odds_history : Json) : Except PyErr (Option OutcomeItem) := do
  if !pyTruthy odds_history then pure none
  else do
    let bname := (objLookup bn bid).getD (.str ("Bookmaker_" ++ bid))
    let entries ← pyToIter odds_history
    let parsed ← entries.foldlM oddsEntryStep []
    pure (some {
      bookmaker_id := some bid
      bookmaker_name := scalarOut bname
      outcome_id := scalarOut oid
      outcome_position := some pos
      outcome_type := some (resolveOutcomeType btidRaw pos)
      odds_history := parsed })

/-- Lines 234–259 of `_parse_outcomes`: the current-odds point of one
bookmaker at one position, when there is one.  Yields the
`(odds, volume, changeTime)` raw values of the appended entry; a present but
`null` odds value counts as absent (`if current_odds_value is not None`). -/
def currentTriple (bco bcv bct : Json) (pos : Nat) : Option (Json × Json × Json) :=
  if pyTruthy bco then
    match bco with
    | .obj fs =>
      match objLookup fs (toString pos) with
      | some v =>
        let vol := match bcv with
          | .obj vfs => (objLookup vfs (toString pos)).getD (.num 0)
          | _ => .num 0
        let ts := match bct with
          | .obj tfs => (objLookup tfs (toString pos)).getD (.num 0)
          | _ => .num 0
        if v.isNull then none else some (v, vol, ts)
      | none => none
    | .arr es =>
      match es[pos]? with
      | some v =>
        let vol := match bcv with
          | .arr ves => (ves[pos]?).getD (.num 0)
          | _ => .num 0
        let ts := match bct with
          | .arr tes => (tes[pos]?).getD (.num 0)
          | _ => .num 0
        if v.isNull then none else some (v, vol, ts)
      | none => none
    | _ => none
  else none

/-- Lines 226–259 of `_parse_outcomes`: the combined history list of one
bookmaker at one position — historical entries (when the outcome id is a key
of the history dict) extended first, then the current-odds entry appended
when present. -/
def combinedOddsHistory (history_data bco bcv bct : Json) (bid : String) (pos : Nat)
    (oid : Json) : Except PyErr (List Json) := do
  let mem ← pyContains history_data oid
  let hist ←
    if mem then do
      let ho ← pyGetItem history_data oid
      let hb ← pyGetD ho bid (.arr [])
      pyToIter hb
    else pure []
  match currentTriple bco bcv bct pos with
  | some (v, vol, ts) => pure (hist ++ [.arr [v, vol, ts]])
  | none => pure hist

/-- The body of the back-branch position loop of `_parse_outcomes`
(lines 221–272) for one `(bookmaker, position)` pair: skip falsy outcome
ids, skip pairs whose combined history is empty, otherwise build the
outcome. -/
def backPairOutcome (bn : List (String × Json)) (history_data bco bcv bct : Json)
    (btidRaw : Option Json) (bid : String) (pos : Nat) (oid : Json) :
    Except PyErr (Option OutcomeItem) := do
  if !pyTruthy oid then pure none
  else do
    let combined ← combinedOddsHistory history_data bco bcv bct bid pos oid
    if combined.isEmpty then pure none
    else parseOutcome bn bid oid pos btidRaw (.arr combined)

/-- First-occurrence deduplication (the model of the Python `set`
`all_bookmaker_ids`; Python's set iteration order is unspecified, and every
verified property is insensitive to the order chosen here). -/
def dedupKeys (l : List String) : List String :=
  l.foldl (fun acc k => if k ∈ acc then acc else acc ++ [k]) []

/-- Lines 210–214 of `_parse_outcomes`: bookmaker ids appearing in the
current odds (when truthy) or in any outcome's history dict. -/
def allBookmakerIds (current_odds history_data : Json) : Except PyErr (List String) := do
  let c ← if pyTruthy current_odds then pyKeys current_odds else pure []
  let hvals ← pyValues history_data
  let hs ← hvals.mapM pyKeys
  pure (dedupKeys (c ++ hs.flatten))

/-- The bookmaker loop body of the lay branch (lines 192–205): skip falsy
logs, append the parsed outcome when (always) truthy. -/
def layBookmakerStep (bn : List (String × Json)) (btidRaw : Option Json) (oid : Json)
    (pos : Nat) (acc : List OutcomeItem) (be : String × Json) :
    Except PyErr (List OutcomeItem) := do
  if !pyTruthy be.2 then pure acc
  else do
    let oi? ← parseOutcome bn be.1 oid pos btidRaw be.2
    match oi? with
    | some oi => if outcomeTruthy oi then pure (acc ++ [oi]) else pure acc
    | none => pure acc

/-- The position loop body of the lay branch (lines 186–205): skip falsy
outcome ids and ids absent from the log, then walk the outcome's log. -/
def layPositionStep (bn : List (String × Json)) (history_data : Json) (btidRaw : Option Json)
    (acc : List OutcomeItem) (pe : Nat × Json) : Except PyErr (List OutcomeItem) := do
  if !pyTruthy pe.2 then pure acc
  else do
    let mem ← pyContains history_data pe.2
    if !mem then pure acc
    else do
      let ho ← pyGetItem history_data pe.2
      let items ← pyItems ho
      items.foldlM (layBookmakerStep bn btidRaw pe.2 pe.1) acc

/-- The position loop body of the back branch (lines 221–272). -/
def backPositionStep (bn : List (String × Json)) (history_data bco bcv bct : Json)
    (btidRaw : Option Json) (bid : String) (acc : List OutcomeItem) (pe : Nat × Json) :
    Except PyErr (List OutcomeItem) := do
  let oi? ← backPairOutcome bn history_data bco bcv bct btidRaw bid pe.1 pe.2
  match oi? with
  | some oi => if outcomeTruthy oi then pure (acc ++ [oi]) else pure acc
  | none => pure acc

/-- The bookmaker loop body of the back branch (lines 216–272): pick the
bookmaker's snapshots (`{}` default) and walk the positions. -/
def backBookmakerStep (bn : List (String × Json)) (history_data co cv ct : Json)
    (btidRaw : Option Json) (oids : Json) (acc : List OutcomeItem) (bid : String) :
    Except PyErr (List OutcomeItem) := do
  let bco ← pyGetD co bid (.obj [])
  let bcv ← pyGetD cv bid (.obj [])
  let bct ← pyGetD ct bid (.obj [])
  let enum ← pyEnumerate oids
  enum.foldlM (backPositionStep bn history_data bco bcv bct btidRaw bid) acc

/-- `_parse_outcomes` (lines 163–274).  `oids` is the (already normalised)
`outcome_ids` value; `btidRaw` the raw `bettingTypeId`. -/
def parseOutcomes (P : ParserParams) (md : Json) (btidRaw : Option Json) (oids : Json) :
    Except PyErr (List OutcomeItem) := do
  let history_data ← pyGetD md "history" (.obj [])
  let current_odds ← pyGetD md "odds" (.obj [])
  let current_volume ← pyGetD md "volume" (.obj [])
  let change_times ← pyGetD md "changeTime" (.obj [])
  if !pyTruthy current_odds && pyTruthy history_data then do
    -- lay shape: only the historical log
    let enum ← pyEnumerate oids
    enum.foldlM (layPositionStep P.bookmaker_names history_data btidRaw) []
  else do
    -- back shape: merge history with the current-odds snapshot
    let bids ← allBookmakerIds current_odds history_data
    bids.foldlM
      (backBookmakerStep P.bookmaker_names history_data current_odds current_volume
        change_times btidRaw oids) []

/-- Stable ascending insertion (`sorted` on ints). -/
def insertIntAsc (x : Int) : List Int → List Int
  | [] => [x]
  | y :: ys => if y ≤ x then y :: insertIntAsc x ys else x :: y :: ys

/-- `sorted` on a list of ints (stable, ascending). -/
def sortInts (l : List Int) : List Int := l.foldl (fun acc x => insertIntAsc x acc) []

/-- Lines 151–154 of `_parse_market`: a dict-shaped `outcomeId` becomes
`[outcome_ids.get(str(i)) for i in sorted(map(int, outcome_ids.keys()))]`;
any other shape is passed through unchanged. -/
def normalizeOutcomeIds (j : Json) : Except PyErr Json :=
  match j with
  | .obj fs => do
    let keys ← fs.mapM (fun kv =>
      match pyIntOfString kv.1 with
      | some i => Except.ok i
      | none => Except.error PyErr.valueError)
    pure (.arr ((sortInts keys).map fun i => (objLookup fs (toString i)).getD .null))
  | _ => pure j

/-- `_parse_market` (lines 105–161), in source order (so conversion
exceptions fire in the same order as the Python `add_value` calls). -/
def parseMarket (P : ParserParams) (md : Json) (is_back : Bool) : Except PyErr MarketItem := do
  let btidRaw ← pyGetOpt md "bettingTypeId"
  let scidRaw ← pyGetOpt md "scopeId"
  let htidRaw ← pyGetOpt md "handicapTypeId"
  let btid ← intFieldOut btidRaw
  let btinfo := (objLookup P.betting_type_names (pyStrOpt btidRaw)).getD (.obj [])
  let btname ← pyGetD btinfo "name" (.str ("Unknown_" ++ pyStrOpt btidRaw))
  let scid ← intFieldOut scidRaw
  let scname := (objLookup P.scope_names (pyStrOpt scidRaw)).getD
    (.str ("Unknown_" ++ pyStrOpt scidRaw))
  let htid ← intFieldOut htidRaw
  let htname ←
    if pyEqZeroOpt htidRaw || (pyStrOpt htidRaw == "0") then pure (Json.str "No Handicap")
    else do
      let hinfo := (objLookup P.handicap_names (pyStrOpt htidRaw)).getD (.obj [])
      pyGetD hinfo "Name" (.str ("Unknown_" ++ pyStrOpt htidRaw))
  let hvRaw ← pyGetOpt md "handicapValue"
  let hv ← floatFieldOut hvRaw
  let mpidRaw ← pyGetOpt md "mixedParameterId"
  let mpid ← intFieldOut mpidRaw
  let mpnameRaw ← pyGetOpt md "mixedParameterName"
  let oidsRaw ← pyGetD md "outcomeId" (.arr [])
  let oids ← normalizeOutcomeIds oidsRaw
  let outcomes ← parseOutcomes P md btidRaw oids
  pure {
    betting_type_id := btid
    betting_type_name := scalarOut btname
    scope_id := scid
    scope_name := scalarOut scname
    handicap_type_id := htid
    handicap_type_name := scalarOut htname
    handicap_value := hv
    mixed_parameter_id := mpid
    mixed_parameter_name := mpnameRaw.bind scalarOut
    is_back := some is_back
    outcome_ids := listOut oids
    outcomes := outcomes }

/-- The market-collection loops of `parse_match_event_odds` (lines 86–98):
each `(marketKey, marketData)` entry is parsed from its *data only* — the key
is never inspected — and appended when truthy (which a parsed market always
is, since `is_back` is always set).  In the current source this stage is
unreachable from `parse_match_event_odds` (see below), and is embedded as the
market-collection stage it implements. -/
def marketStep (P : ParserParams) (is_back : Bool) (acc : List MarketItem)
    (kv : String × Json) : Except PyErr (List MarketItem) := do
  let mi ← parseMarket P kv.2 is_back
  if marketTruthy mi then pure (acc ++ [mi]) else pure acc

/-- The fold those loops perform, starting from the empty list. -/
def collectMarkets (P : ParserParams) (entries : List (String × Json)) (is_back : Bool) :
    Except PyErr (List MarketItem) :=
  entries.foldlM (marketStep P is_back) []

/-- `parse_match_event_odds` (lines 37–103).  After the status check and the
`match_id`/`encoded_event_id` adds, line 64 executes
`loader.add_value('is_started', self.is_started)`: `is_started` is not a
declared field of `MatchEventOddsItem`, so the loader's input-processor
lookup (`item.fields['is_started']`) raises `KeyError('is_started')`.  Every
later line of the function — including the whole market loop — is dead code,
and the function never returns an item. -/
def parseMatchEventOdds (_P : ParserParams) (r : Json) (match_id : Option String) :
    Except PyErr MatchEventOddsItem := do
  let s ← pyGetOpt r "s"
  if !pyEqOne s then Except.error .invalidResponseStatus
  else do
    let d ← pyGetD r "d" (.obj [])
    -- if match_id: loader.add_value('match_id', match_id) — pure
    let _ := match_id
    -- loader.add_value('encoded_event_id', odds_data.get('encodeventId'))
    let _ ← pyGetOpt d "encodeventId"
    -- loader.add_value('is_started', self.is_started) — undeclared field
    Except.error (.keyError "is_started")

/-! ## The decryption pipeline (`spiders/odds_portal/parser.py`)

Byte strings are `List Nat` of values < 256.  Base64, hex and UTF-8 are
implemented concretely; PBKDF2-HMAC-SHA256, AES-256-CBC and `json.loads` are
abstract primitives (`CryptoPrims`) — every verified property holds for all
primitives, so nothing depends on their internals — together with the input
validation the `cryptography` library performs around them (AES key sizes,
the 16-byte CBC IV, block-aligned ciphertext). -/

/-- `CRYPTO_PASSWORD` of `parser.py` (line 9). -/
def CRYPTO_PASSWORD : String := "%RtR8AB&nWsh=AQC+v!=pgAe@dSQG3kQ"

/-- `CRYPTO_SALT` of `parser.py` (line 10). -/
def CRYPTO_SALT : String := "orieC_jQQWRmhkPvR6u2kzXeTube6aYupiOddsPortal"

/-- Value of a base64 alphabet character. -/
def b64CharVal (c : Char) : Option Nat :=
  if 'A' ≤ c ∧ c ≤ 'Z' then some (c.toNat - 'A'.toNat)
  else if 'a' ≤ c ∧ c ≤ 'z' then some (c.toNat - 'a'.toNat + 26)
  else if '0' ≤ c ∧ c ≤ '9' then some (c.toNat - '0'.toNat + 52)
  else if c = '+' then some 62
  else if c = '/' then some 63
  else none

/-- Sextet groups to bytes: a final group of 2 or 3 sextets yields 1 or 2
bytes (spare low bits discarded, as `binascii` does); a single leftover
sextet is an error. -/
def b64Quads : List Nat → Option (List Nat)
  | [] => some []
  | [_] => none
  | [a, b] => some [a * 4 + b / 16]
  | [a, b, c] => some [a * 4 + b / 16, (b % 16) * 16 + c / 4]
  | a :: b :: c :: d :: rest => do
    let tail ← b64Quads rest
    pure ([a * 4 + b / 16, (b % 16) * 16 + c / 4, (c % 4) * 64 + d] ++ tail)

/-- Python `base64.b64decode` on a string (`validate=False`): the input must
be ASCII (`ValueError` otherwise), characters outside the alphabet are
discarded, the kept length must be a multiple of four, and at most two `=`
may appear, only at the end.  `none` models the raised `binascii.Error` /
`ValueError`. -/
def b64decodeStr (s : String) : Option (List Nat) :=
  if !s.data.all (fun c => c.toNat < 128) then none
  else
    let kept := s.data.filter (fun c => (b64CharVal c).isSome || c = '=')
    if kept.length % 4 ≠ 0 then none
    else
      let content := kept.takeWhile (fun c => c ≠ '=')
      let padChars := kept.dropWhile (fun c => c ≠ '=')
      if !padChars.all (fun c => c = '=') then none
      else if padChars.length > 2 then none
      else b64Quads (content.filterMap b64CharVal)

/-- Value of a hex digit. -/
def hexVal (c : Char) : Option Nat :=
  if '0' ≤ c ∧ c ≤ '9' then some (c.toNat - '0'.toNat)
  else if 'a' ≤ c ∧ c ≤ 'f' then some (c.toNat - 'a'.toNat + 10)
  else if 'A' ≤ c ∧ c ≤ 'F' then some (c.toNat - 'A'.toNat + 10)
  else none

/-- Hex digit pairs to bytes, skipping the spaces `bytes.fromhex` allows
between pairs. -/
def hexPairs : List Char → Option (List Nat)
  | [] => some []
  | ' ' :: rest => hexPairs rest
  | a :: b :: rest => do
    let ha ← hexVal a
    let hb ← hexVal b
    let t ← hexPairs rest
    pure ((ha * 16 + hb) :: t)
  | _ => none

/-- Python `bytes.fromhex`; `none` models the raised `ValueError`. -/
def hexDecode (s : String) : Option (List Nat) := hexPairs s.data

/-- UTF-8 encoding of one character. -/
def utf8EncodeChar (c : Char) : List Nat :=
  let n := c.toNat
  if n < 0x80 then [n]
  else if n < 0x800 then [0xC0 + n / 64, 0x80 + n % 64]
  else if n < 0x10000 then [0xE0 + n / 4096, 0x80 + (n / 64) % 64, 0x80 + n % 64]
  else [0xF0 + n / 262144, 0x80 + (n / 4096) % 64, 0x80 + (n / 64) % 64, 0x80 + n % 64]

/-- Python `str.encode('utf-8')`. -/
def utf8Encode (s : String) : List Nat := (s.data.map utf8EncodeChar).flatten

/-- Strict UTF-8 decoding (fuel-bounded; the fuel never runs out when it
starts at the byte count).  Overlong forms, surrogates and values beyond
U+10FFFF are rejected, as Python's strict `bytes.decode('utf-8')` does. -/
def utf8DecodeAux : Nat → List Nat → Option (List Char)
  | _, [] => some []
  | 0, _ => none
  | fuel + 1, b :: rest =>
    if b < 0x80 then do
      let cs ← utf8DecodeAux fuel rest
      pure (Char.ofNat b :: cs)
    else if 0xC2 ≤ b ∧ b ≤ 0xDF then
      match rest with
      | b2 :: rest2 =>
        if 0x80 ≤ b2 ∧ b2 ≤ 0xBF then do
          let cs ← utf8DecodeAux fuel rest2
          pure (Char.ofNat ((b - 0xC0) * 64 + (b2 - 0x80)) :: cs)
        else none
      | _ => none
    else if 0xE0 ≤ b ∧ b ≤ 0xEF then
      match rest with
      | b2 :: b3 :: rest2 =>
        let lo2 := if b = 0xE0 then 0xA0 else 0x80
        let hi2 := if b = 0xED then 0x9F else 0xBF
        if lo2 ≤ b2 ∧ b2 ≤ hi2 ∧ 0x80 ≤ b3 ∧ b3 ≤ 0xBF then do
          let cs ← utf8DecodeAux fuel rest2
          pure (Char.ofNat ((b - 0xE0) * 4096 + (b2 - 0x80) * 64 + (b3 - 0x80)) :: cs)
        else none
      | _ => none
    else if 0xF0 ≤ b ∧ b ≤ 0xF4 then
      match rest with
      | b2 :: b3 :: b4 :: rest2 =>
        let lo2 := if b = 0xF0 then 0x90 else 0x80
        let hi2 := if b = 0xF4 then 0x8F else 0xBF
        if lo2 ≤ b2 ∧ b2 ≤ hi2 ∧ 0x80 ≤ b3 ∧ b3 ≤ 0xBF ∧ 0x80 ≤ b4 ∧ b4 ≤ 0xBF then do
          let cs ← utf8DecodeAux fuel rest2
          pure (Char.ofNat ((b - 0xF0) * 262144 + (b2 - 0x80) * 4096 +
            (b3 - 0x80) * 64 + (b4 - 0x80)) :: cs)
        else none
      | _ => none
    else none

/-- Python `bytes.decode('utf-8')`; `none` models `UnicodeDecodeError`. -/
def utf8Decode (bs : List Nat) : Option String :=
  (utf8DecodeAux (bs.length + 1) bs).map String.mk

/-- Lines 167–169 of `parser.py`:
`padding_length = decrypted_padded[-1]; decrypted_data = decrypted_padded[:-padding_length]`.
Python slicing, faithfully: `buf[:-0]` is `buf[:0]`, the empty bytes; for
`n > 0`, `buf[:-n]` keeps the first `len − n` bytes (nothing is left when
`n ≥ len`).  `none` models the `IndexError` of `[-1]` on an empty buffer.
No validation of the removed bytes takes place. -/
def stripPad (buf : List Nat) : Option (List Nat) :=
  match buf.getLast? with
  | none => none
  | some n => some (if n = 0 then [] else buf.take (buf.length - n))

/-- The cryptographic / parsing primitives the pipeline composes:
`PBKDF2HMAC(SHA256, length, salt, iterations).derive(password)` as
`pbkdf2HmacSha256 password salt iterations length`; raw AES-CBC decryption of
block-aligned data; `json.loads`.  All verified properties are universal in
these. -/
structure CryptoPrims where
  pbkdf2HmacSha256 : List Nat → List Nat → Nat → Nat → List Nat
  aesCbcDecrypt : List Nat → List Nat → List Nat → List Nat
  jsonParse : String → Option Json

/-- Outcome of `decrypt_data_PBKDF2HMAC`: a parsed value, the explicit
`return None` after a failed split (`formatError`), or an uncaught exception
from any other step (`decryptError` — Python raises several exception types
here, but the function distinguishes none of them). -/
inductive DecryptResult where
  | ok (j : Json)
  | formatError
  | decryptError
deriving Repr

/-- Steps shared by code and spec: base64-decode the whole payload, then
UTF-8-decode it to text (lines 135–136). -/
def decodePayloadToText (payload : String) : Option String := do
  let bs ← b64decodeStr payload
  utf8Decode bs

/-- Python `str.split(c)` for a single-character separator: every occurrence
splits, adjacent separators produce empty parts, the empty string gives one
empty part. -/
def splitOnChar (c : Char) : List Char → List (List Char)
  | [] => [[]]
  | x :: rest =>
    match splitOnChar c rest with
    | [] => [[]]
    | g :: gs => if x = c then [] :: g :: gs else (x :: g) :: gs

/-- `decoded.split(':')` (line 139). -/
def pySplitColon (s : String) : List String := (splitOnChar ':' s.data).map String.mk

/-- `decrypt_data_PBKDF2HMAC` (lines 134–175), including the validations the
`cryptography` library performs (AES accepts 128/192/256-bit keys; CBC
requires a 16-byte IV; `finalize` requires block-aligned data). -/
def decrypt_data_PBKDF2HMAC (C : CryptoPrims) (encrypted_data : String) : DecryptResult :=
  match decodePayloadToText encrypted_data with
  | none => .decryptError
  | some decoded =>
    let parts := pySplitColon decoded
    if parts.length ≠ 2 then .formatError
    else
      let encrypted_b64 := parts.getD 0 ""
      let iv_hex := parts.getD 1 ""
      match hexDecode iv_hex with
      | none => .decryptError
      | some iv =>
        match b64decodeStr encrypted_b64 with
        | none => .decryptError
        | some encrypted_bytes =>
          let key := C.pbkdf2HmacSha256 (utf8Encode CRYPTO_PASSWORD)
            (utf8Encode CRYPTO_SALT) 1000 32
          if ¬ (key.length = 16 ∨ key.length = 24 ∨ key.length = 32) then .decryptError
          else if iv.length ≠ 16 then .decryptError
          else if encrypted_bytes.length % 16 ≠ 0 then .decryptError
          else
            let decrypted_padded := C.aesCbcDecrypt key iv encrypted_bytes
            match stripPad decrypted_padded with
            | none => .decryptError
            | some decrypted_data =>
              match utf8Decode decrypted_data with
              | none => .decryptError
              | some plaintext =>
                match C.jsonParse plaintext with
                | none => .decryptError
                | some j => .ok j

/-- The tail of the pipeline after a successful two-part split, as one
`Option` composition (every failure collapses to `none`). -/
def restPipeline (C : CryptoPrims) (cipherPart ivHex : String) : Option Json := do
  let iv ← hexDecode ivHex
  let ct ← b64decodeStr cipherPart
  let key := C.pbkdf2HmacSha256 (utf8Encode CRYPTO_PASSWORD) (utf8Encode CRYPTO_SALT) 1000 32
  if ¬ (key.length = 16 ∨ key.length = 24 ∨ key.length = 32) then none
  else if iv.length ≠ 16 then none
  else if ct.length % 16 ≠ 0 then none
  else do
    let data ← stripPad (C.aesCbcDecrypt key iv ct)
    let txt ← utf8Decode data
    C.jsonParse txt

/-- The decryption pipeline exactly as the specification words it: base64 →
split → hex IV → base64 ciphertext → PBKDF2-HMAC-SHA256 (fixed password and
salt, 1000 iterations, 256-bit key) → AES-256-CBC → strip as many trailing
bytes as the last byte's value → UTF-8 → JSON. -/
def specDecrypt (C : CryptoPrims) (payload : String) : Option Json := do
  let txt ← decodePayloadToText payload
  match pySplitColon txt with
  | [cipherPart, ivHex] => do
    let iv ← hexDecode ivHex
    let ciphertext ← b64decodeStr cipherPart
    let key := C.pbkdf2HmacSha256 (utf8Encode CRYPTO_PASSWORD) (utf8Encode CRYPTO_SALT) 1000 32
    let padded := C.aesCbcDecrypt key iv ciphertext
    let n ← padded.getLast?
    let stripped := padded.take (padded.length - n)
    let plain ← utf8Decode stripped
    C.jsonParse plain
  | _ => none

/-! ## Specification-side definitions

These follow the wording of the specification (§4.2–§4.4, §8) and are
compared against the embedded source functions in the claim theorems. -/

/-- Generic first-match association lookup. -/
def assocL {α : Type} (l : List (String × α)) (k : String) : Option α :=
  match l with
  | [] => none
  | (k', v) :: rest => if k' = k then some v else assocL rest k

/-- A typed historical log: outcomeId → bookmakerId → raw entry list, as the
JSON value the API ships. -/
def histJson (H : List (String × List (String × List Json))) : Json :=
  .obj (H.map fun kv => (kv.1, .obj (kv.2.map fun be => (be.1, .arr be.2))))

/-- The raw historical entries of one bookmaker in one outcome's log
(`history_data[outcome_id].get(bookmaker_id, [])`). -/
def entriesFor (B : List (String × List Json)) (bid : String) : List Json :=
  (assocL B bid).getD []

/-- Spec §4.4: one raw entry converted to an odds point, `none` when the
entry is not a tuple of at least 3 elements or loads to an empty item. -/
def oddsPointOfEntry (e : Json) : Option OddsItem :=
  match e with
  | .arr t =>
    if t.length < 3 then none
    else
      let oi : OddsItem :=
        ⟨convert_odds_value (t.getD 0 .null), convert_volume (t.getD 1 .null),
          convert_unix_timestamp (t.getD 2 .null)⟩
      if oddsTruthy oi then some oi else none
  | _ => none

/-- The outcome record of one `(bookmaker, outcomeId, position)` pair whose
merged history is the raw entry list `es`, taken verbatim in API order. -/
def specLayOutcome (bn : List (String × Json)) (bid : String) (oid : Json) (pos : Nat)
    (btidRaw : Option Json) (es : List Json) : OutcomeItem :=
  { bookmaker_id := some bid
    bookmaker_name := scalarOut ((objLookup bn bid).getD (.str ("Bookmaker_" ++ bid)))
    outcome_id := scalarOut oid
    outcome_position := some pos
    outcome_type := some (resolveOutcomeType btidRaw pos)
    odds_history := es.filterMap oddsPointOfEntry }

/-- The outcomes one `(position, outcomeId)` pair contributes in the
lay-market shape: one outcome per bookmaker with a non-empty log under that
outcome id (a non-string or falsy outcome id contributes nothing). -/
def layPerPos (bn : List (String × Json)) (btidRaw : Option Json)
    (H : List (String × List (String × List Json))) (pe : Nat × Json) : List OutcomeItem :=
  if !pyTruthy pe.2 then []
  else
    match pe.2 with
    | .str s =>
      match assocL H s with
      | some B => (B.map fun be =>
          if be.2.isEmpty then []
          else [specLayOutcome bn be.1 pe.2 pe.1 btidRaw be.2]).flatten
      | none => []
    | _ => []

/-- Spec §4.4 step 1 (lay-market shape): for every `(outcomeId, position)`
pair of `outcomeIds`, for every bookmaker present in the historical log for
that outcome id (skipping empty logs), emit its raw history entries
verbatim, in API order. -/
def specLayOutcomes (bn : List (String × Json)) (btidRaw : Option Json)
    (H : List (String × List (String × List Json))) (os : List Json) : List OutcomeItem :=
  ((enumFrom 0 os).map (layPerPos bn btidRaw H)).flatten

/-- Spec §4.4 step 2: the appended current-odds point of one bookmaker at one
position — present when the snapshot (in either positional encoding: dict
keyed by the stringified index, or plain array) holds a non-null odds value
there; volume and change time are read positionally in the snapshot's
encoding and default to 0. -/
def specCurrentPoint (bco bcv bct : Json) (pos : Nat) : List Json :=
  match bco with
  | .obj fs =>
    match objLookup fs (toString pos) with
    | some v =>
      if v.isNull then []
      else
        [.arr [v,
          (match bcv with
           | .obj vfs => (objLookup vfs (toString pos)).getD (.num 0)
           | _ => .num 0),
          (match bct with
           | .obj tfs => (objLookup tfs (toString pos)).getD (.num 0)
           | _ => .num 0)]]
    | none => []
  | .arr es =>
    match es[pos]? with
    | some v =>
      if v.isNull then []
      else
        [.arr [v,
          (match bcv with
           | .arr ves => (ves[pos]?).getD (.num 0)
           | _ => .num 0),
          (match bct with
           | .arr tes => (tes[pos]?).getD (.num 0)
           | _ => .num 0)]]
    | none => []
  | _ => []

/-- Spec §4.3: the outcome-type resolution table, written as the
specification lists it, with the `outcome_<position>` fallback. -/
def specResolveOutcomeType (bt : Int) (pos : Nat) : String :=
  let fb := "outcome_" ++ toString pos
  if bt = 1 ∨ bt = 12 then
    if pos = 0 then "home" else if pos = 1 then "draw" else if pos = 2 then "away" else fb
  else if bt = 2 then
    if pos = 0 then "under" else if pos = 1 then "over" else fb
  else if bt = 3 ∨ bt = 5 ∨ bt = 6 ∨ bt = 7 then
    if pos = 0 then "home" else if pos = 1 then "away" else fb
  else if bt = 4 then
    if pos = 0 then "1x" else if pos = 1 then "12" else if pos = 2 then "x2" else fb
  else if bt = 10 then
    if pos = 0 then "odd" else if pos = 1 then "even" else fb
  else if bt = 13 then
    if pos = 0 then "no" else if pos = 1 then "yes" else fb
  else fb

/-! ## Helper lemmas -/

theorem any_key_isSome (fs : List (String × Json)) (s : String) :
    (fs.any fun kv => decide (s = kv.1)) = (objLookup fs s).isSome := by
  induction fs with
  | nil => rfl
  | cons kv rest ih =>
    obtain ⟨k, w⟩ := kv
    by_cases h : k = s
    · subst h; simp [objLookup]
    · have hd : decide (s = k) = false := decide_eq_false (fun hh => h hh.symm)
      simp [objLookup, h, hd, ih]

theorem find?_key_of_lookup (fs : List (String × Json)) (s : String) (v : Json)
    (h : objLookup fs s = some v) :
    fs.find? (fun kv => decide (s = kv.1)) = some (s, v) := by
  induction fs with
  | nil => simp [objLookup] at h
  | cons kv rest ih =>
    obtain ⟨k, w⟩ := kv
    by_cases hk : k = s
    · subst hk
      simp only [objLookup, if_pos rfl] at h
      injection h with h'
      subst h'
      simp [List.find?]
    · simp only [objLookup, if_neg hk] at h
      have hd : decide (s = k) = false := decide_eq_false (fun hh => hk hh.symm)
      simp [List.find?, hd, ih h]

theorem find?_key_none (fs : List (String × Json)) (s : String)
    (h : objLookup fs s = none) :
    fs.find? (fun kv => decide (s = kv.1)) = none := by
  induction fs with
  | nil => rfl
  | cons kv rest ih =>
    obtain ⟨k, w⟩ := kv
    by_cases hk : k = s
    · subst hk; simp [objLookup] at h
    · simp only [objLookup, if_neg hk] at h
      have hd : decide (s = k) = false := decide_eq_false (fun hh => hk hh.symm)
      simp [List.find?, hd, ih h]

theorem pyContains_obj (fs : List (String × Json)) (x : Json) :
    pyContains (.obj fs) x =
      .ok (match x with | .str s => (objLookup fs s).isSome | _ => false) := by
  cases x with
  | str s =>
    show Except.ok (fs.any fun kv => pyEq (.str s) (.str kv.1)) = _
    rw [show (fun kv : String × Json => pyEq (.str s) (.str kv.1)) =
      fun kv => decide (s = kv.1) from funext fun _ => rfl]
    rw [any_key_isSome]
  | null =>
    show Except.ok (fs.any fun kv => pyEq .null (.str kv.1)) = _
    simp [show (fun kv : String × Json => pyEq .null (.str kv.1)) =
      fun _ => false from funext fun _ => rfl]
  | bool b =>
    show Except.ok (fs.any fun kv => pyEq (.bool b) (.str kv.1)) = _
    simp [show (fun kv : String × Json => pyEq (.bool b) (.str kv.1)) =
      fun _ => false from funext fun _ => rfl]
  | num q =>
    show Except.ok (fs.any fun kv => pyEq (.num q) (.str kv.1)) = _
    simp [show (fun kv : String × Json => pyEq (.num q) (.str kv.1)) =
      fun _ => false from funext fun _ => rfl]
  | arr es =>
    show Except.ok (fs.any fun kv => pyEq (.arr es) (.str kv.1)) = _
    simp [show (fun kv : String × Json => pyEq (.arr es) (.str kv.1)) =
      fun _ => false from funext fun _ => rfl]
  | obj ms =>
    show Except.ok (fs.any fun kv => pyEq (.obj ms) (.str kv.1)) = _
    simp [show (fun kv : String × Json => pyEq (.obj ms) (.str kv.1)) =
      fun _ => false from funext fun _ => rfl]

theorem pyGetItem_obj_str (fs : List (String × Json)) (s : String) (v : Json)
    (h : objLookup fs s = some v) : pyGetItem (.obj fs) (.str s) = .ok v := by
  show (match fs.find? (fun kv => pyEq (.str s) (.str kv.1)) with
    | some kv => (Except.ok kv.2 : Except PyErr Json)
    | none => Except.error (PyErr.keyError "getitem")) = _
  rw [show (fun kv : String × Json => pyEq (.str s) (.str kv.1)) =
    fun kv => decide (s = kv.1) from funext fun _ => rfl]
  rw [find?_key_of_lookup fs s v h]

theorem objLookup_histJson (H : List (String × List (String × List Json))) (s : String) :
    objLookup (H.map fun kv =>
        (kv.1, Json.obj (kv.2.map fun be => (be.1, Json.arr be.2)))) s =
      (assocL H s).map (fun B => Json.obj (B.map fun be => (be.1, Json.arr be.2))) := by
  induction H with
  | nil => rfl
  | cons kv rest ih =>
    by_cases h : kv.1 = s <;> simp [objLookup, assocL, h, ih]

theorem mem_dedup_foldl (l : List String) (x : String) :
    ∀ acc, (x ∈ l.foldl (fun acc k => if k ∈ acc then acc else acc ++ [k]) acc) ↔
      (x ∈ acc ∨ x ∈ l) := by
  induction l with
  | nil => intro acc; simp
  | cons k rest ih =>
    intro acc
    by_cases hk : k ∈ acc
    · simp only [List.foldl, if_pos hk, ih]
      constructor
      · rintro (h | h)
        · exact Or.inl h
        · exact Or.inr (List.mem_cons_of_mem _ h)
      · rintro (h | h)
        · exact Or.inl h
        · rcases List.mem_cons.mp h with rfl | h
          · exact Or.inl hk
          · exact Or.inr h
    · simp only [List.foldl, if_neg hk, ih, List.mem_append, List.mem_singleton,
        List.mem_cons]
      tauto

theorem mem_dedupKeys (l : List String) (x : String) : x ∈ dedupKeys l ↔ x ∈ l := by
  have h := mem_dedup_foldl l x []
  simpa [dedupKeys] using h

theorem pyListIndex_nat (es : List Json) (n : Nat) (h : n < es.length) :
    pyListIndex es (n : Int) = .ok (es.getD n .null) := by
  simp only [pyListIndex]
  rw [if_neg (by omega : ¬ (n : Int) < 0)]
  rw [if_pos ⟨by omega, by exact_mod_cast h⟩]
  simp

theorem parseOddsEntry_arr (t : List Json) :
    parseOddsEntry (.arr t) = .ok (
      if t.length < 3 then none
      else some ⟨convert_odds_value (t.getD 0 .null), convert_volume (t.getD 1 .null),
        convert_unix_timestamp (t.getD 2 .null)⟩) := by
  by_cases h3 : t.length < 3
  · simp [parseOddsEntry, pyLen, h3, Bind.bind, Except.bind, pure, Except.pure]
  · match t, h3 with
    | [], h => exact absurd (by norm_num) h
    | [a], h => exact absurd (by norm_num) h
    | [a, b], h => exact absurd (by norm_num) h
    | a :: b :: c :: rest, h =>
      have p0 : pyIndexOf (Json.num 0) = some ((0 : Nat) : Int) := rfl
      have p1 : pyIndexOf (Json.num 1) = some ((1 : Nat) : Int) := rfl
      have p2 : pyIndexOf (Json.num 2) = some ((2 : Nat) : Int) := rfl
      simp only [parseOddsEntry, pyLen, pyGetItem, p0, p1, p2]
      rw [pyListIndex_nat _ 0 (by simp), pyListIndex_nat _ 1 (by simp),
        pyListIndex_nat _ 2 (by simp)]
      rw [if_neg (by simp : ¬ (a :: b :: c :: rest).length < 3)]
      simp [Bind.bind, Except.bind, pure, Except.pure, List.getD,
        if_neg (by omega : ¬ rest.length + 1 + 1 + 1 < 3)]

theorem oddsEntryStep_arr (acc : List OddsItem) (t : List Json) :
    oddsEntryStep acc (.arr t) = .ok (acc ++ (oddsPointOfEntry (.arr t)).toList) := by
  by_cases h3 : 3 ≤ t.length
  · simp only [oddsEntryStep, pyLen, Bind.bind, Except.bind, ge_iff_le, if_pos h3,
      parseOddsEntry_arr, if_neg (by omega : ¬ t.length < 3), oddsPointOfEntry]
    split <;> simp [pure, Except.pure]
  · simp [oddsEntryStep, pyLen, Bind.bind, Except.bind, ge_iff_le, if_neg h3,
      oddsPointOfEntry, if_pos (by omega : t.length < 3), pure, Except.pure]

theorem oddsFold_eq (es : List Json) (har : ∀ e ∈ es, ∃ t, e = .arr t) :
    ∀ acc, es.foldlM oddsEntryStep acc = .ok (acc ++ es.filterMap oddsPointOfEntry) := by
  induction es with
  | nil => intro acc; simp [List.foldlM, pure, Except.pure]
  | cons e rest ih =>
    intro acc
    obtain ⟨t, rfl⟩ := har _ (List.mem_cons_self _ _)
    have hrest : ∀ e ∈ rest, ∃ u, e = Json.arr u :=
      fun e he => har e (List.mem_cons_of_mem _ he)
    rw [List.foldlM_cons, oddsEntryStep_arr]
    show rest.foldlM oddsEntryStep (acc ++ (oddsPointOfEntry (.arr t)).toList) = _
    rw [ih hrest]
    rcases hpt : oddsPointOfEntry (.arr t) with _ | oi <;>
      simp [List.filterMap_cons, hpt]

theorem parseOutcome_arr_eq (bn : List (String × Json)) (bid : String) (oid : Json)
    (pos : Nat) (btidRaw : Option Json) (es : List Json) (hne : es ≠ [])
    (har : ∀ e ∈ es, ∃ t, e = .arr t) :
    parseOutcome bn bid oid pos btidRaw (.arr es) =
      .ok (some (specLayOutcome bn bid oid pos btidRaw es)) := by
  have hemp : es.isEmpty = false := by
    cases es with
    | nil => exact absurd rfl hne
    | cons a l => rfl
  simp only [parseOutcome, pyTruthy, hemp, Bool.not_false, Bool.not_true, if_false,
    pyToIter, Bind.bind, Except.bind]
  rw [oddsFold_eq es har []]
  rfl

theorem assocL_mem {α : Type} (l : List (String × α)) (k : String) (v : α)
    (h : assocL l k = some v) : (k, v) ∈ l := by
  induction l with
  | nil => simp [assocL] at h
  | cons kv rest ih =>
    obtain ⟨k', w⟩ := kv
    by_cases hk : k' = k
    · subst hk
      simp only [assocL, if_pos rfl] at h
      injection h with h'
      subst h'
      exact List.mem_cons_self _ _
    · simp only [assocL, if_neg hk] at h
      exact List.mem_cons_of_mem _ (ih h)

theorem currentTriple_spec (bco bcv bct : Json) (pos : Nat) :
    (match currentTriple bco bcv bct pos with
     | some t => [Json.arr [t.1, t.2.1, t.2.2]]
     | none => []) = specCurrentPoint bco bcv bct pos := by
  cases bco with
  | obj fs =>
    cases fs with
    | nil => simp [currentTriple, specCurrentPoint, pyTruthy, objLookup]
    | cons kv rest =>
      cases hl : objLookup (kv :: rest) (toString pos) with
      | none => simp [currentTriple, specCurrentPoint, pyTruthy, hl]
      | some v =>
        by_cases hn : v.isNull = true <;>
          simp [currentTriple, specCurrentPoint, pyTruthy, hl, hn]
  | arr es =>
    cases es with
    | nil => simp [currentTriple, specCurrentPoint, pyTruthy]
    | cons e rest =>
      cases hg : (e :: rest)[pos]? with
      | none => simp [currentTriple, specCurrentPoint, pyTruthy, hg]
      | some v =>
        by_cases hn : v.isNull = true <;>
          simp [currentTriple, specCurrentPoint, pyTruthy, hg, hn]
  | null => rfl
  | bool b => cases b <;> rfl
  | num q =>
    by_cases hq : pyTruthy (.num q) = true <;>
      simp [currentTriple, specCurrentPoint, hq]
  | str s =>
    by_cases hs : pyTruthy (.str s) = true <;>
      simp [currentTriple, specCurrentPoint, hs]

theorem layBkFold_eq (bn : List (String × Json)) (btidRaw : Option Json) (oid : Json)
    (pos : Nat) (B : List (String × List Json))
    (har : ∀ be ∈ B, ∀ e ∈ be.2, ∃ t, e = Json.arr t) :
    ∀ acc, (B.map fun be => (be.1, Json.arr be.2)).foldlM
        (layBookmakerStep bn btidRaw oid pos) acc =
      .ok (acc ++ (B.map fun be =>
        if be.2.isEmpty then []
        else [specLayOutcome bn be.1 oid pos btidRaw be.2]).flatten) := by
  induction B with
  | nil => intro acc; simp [List.foldlM, pure, Except.pure]
  | cons be brest ih =>
    intro acc
    obtain ⟨bid, es⟩ := be
    have hrest : ∀ b ∈ brest, ∀ e ∈ b.2, ∃ t, e = Json.arr t :=
      fun b hb => har b (List.mem_cons_of_mem _ hb)
    rw [List.map_cons, List.foldlM_cons]
    cases es with
    | nil =>
      have hstep : layBookmakerStep bn btidRaw oid pos acc (bid, Json.arr []) = .ok acc := by
        simp [layBookmakerStep, pyTruthy, pure, Except.pure]
      rw [hstep]
      show (brest.map fun be => (be.1, Json.arr be.2)).foldlM
        (layBookmakerStep bn btidRaw oid pos) acc = _
      rw [ih hrest]
      simp
    | cons e es' =>
      have hne : (e :: es') ≠ ([] : List Json) := by simp
      have hstep : layBookmakerStep bn btidRaw oid pos acc (bid, Json.arr (e :: es')) =
          .ok (acc ++ [specLayOutcome bn bid oid pos btidRaw (e :: es')]) := by
        simp only [layBookmakerStep, pyTruthy, List.isEmpty_cons, Bool.not_false,
          Bool.not_true, if_false, Bind.bind, Except.bind,
          parseOutcome_arr_eq bn bid oid pos btidRaw (e :: es') hne
            (har _ (List.mem_cons_self _ _))]
        simp [outcomeTruthy, specLayOutcome, pure, Except.pure]
      rw [hstep]
      show (brest.map fun be => (be.1, Json.arr be.2)).foldlM
        (layBookmakerStep bn btidRaw oid pos)
        (acc ++ [specLayOutcome bn bid oid pos btidRaw (e :: es')]) = _
      rw [ih hrest]
      simp

theorem layPosFold_eq (bn : List (String × Json)) (btidRaw : Option Json)
    (H : List (String × List (String × List Json)))
    (hH : ∀ kv ∈ H, ∀ be ∈ kv.2, ∀ e ∈ be.2, ∃ t, e = Json.arr t)
    (l : List (Nat × Json)) :
    ∀ acc, l.foldlM (layPositionStep bn (histJson H) btidRaw) acc =
      .ok (acc ++ (l.map (layPerPos bn btidRaw H)).flatten) := by
  induction l with
  | nil => intro acc; simp [List.foldlM, pure, Except.pure]
  | cons pe rest ih =>
    intro acc
    rw [List.foldlM_cons]
    have hstep : layPositionStep bn (histJson H) btidRaw acc pe =
        .ok (acc ++ layPerPos bn btidRaw H pe) := by
      by_cases htr : pyTruthy pe.2 = true
      · cases hx : pe.2 with
        | str s =>
          rw [hx] at htr
          cases hB : assocL H s with
          | none =>
            have hlk : objLookup (H.map fun kv =>
                (kv.1, Json.obj (kv.2.map fun be => (be.1, Json.arr be.2)))) s = none := by
              rw [objLookup_histJson, hB]; rfl
            simp [layPositionStep, hx, htr, histJson, pyContains_obj, hlk,
              layPerPos, hB, Bind.bind, Except.bind, pure, Except.pure]
          | some B =>
            have hlk : objLookup (H.map fun kv =>
                (kv.1, Json.obj (kv.2.map fun be => (be.1, Json.arr be.2)))) s =
                some (Json.obj (B.map fun be => (be.1, Json.arr be.2))) := by
              rw [objLookup_histJson, hB]; rfl
            have hBar : ∀ be ∈ B, ∀ e ∈ be.2, ∃ t, e = Json.arr t :=
              hH (s, B) (assocL_mem H s B hB)
            simp only [layPositionStep, hx, htr, Bool.not_true, if_false,
              histJson, pyContains_obj, hlk, Option.isSome_some, Bind.bind, Except.bind,
              pyGetItem_obj_str _ _ _ hlk, pyItems]
            rw [layBkFold_eq bn btidRaw (.str s) pe.1 B hBar acc]
            simp [layPerPos, htr, hx, hB]
        | null => rw [hx] at htr; simp [pyTruthy] at htr
        | bool b =>
          rw [hx] at htr
          simp [layPositionStep, hx, htr, histJson, pyContains_obj,
            layPerPos, Bind.bind, Except.bind, pure, Except.pure]
        | num q =>
          rw [hx] at htr
          simp [layPositionStep, hx, htr, histJson, pyContains_obj,
            layPerPos, Bind.bind, Except.bind, pure, Except.pure]
        | arr es =>
          rw [hx] at htr
          simp [layPositionStep, hx, htr, histJson, pyContains_obj,
            layPerPos, Bind.bind, Except.bind, pure, Except.pure]
        | obj ms =>
          rw [hx] at htr
          simp [layPositionStep, hx, htr, histJson, pyContains_obj,
            layPerPos, Bind.bind, Except.bind, pure, Except.pure]
      · simp [layPositionStep, htr, layPerPos, pure, Except.pure]
    rw [hstep]
    show rest.foldlM (layPositionStep bn (histJson H) btidRaw)
      (acc ++ layPerPos bn btidRaw H pe) = _
    rw [ih]
    simp

/-- Whether a value is a JSON array. -/
def Json.isArr : Json → Bool
  | .arr _ => true
  | _ => false

/-- Whether a value is a JSON object. -/
def Json.isObj : Json → Bool
  | .obj _ => true
  | _ => false

/-- Decidable form of "every raw history entry in the log is an array". -/
def allEntriesArr (H : List (String × List (String × List Json))) : Bool :=
  H.all fun kv => kv.2.all fun be => be.2.all Json.isArr

theorem exists_arr_of_isArr (e : Json) (h : Json.isArr e = true) : ∃ t, e = Json.arr t := by
  cases e <;> simp [Json.isArr] at h ⊢

theorem allEntriesArr_spec (H : List (String × List (String × List Json)))
    (h : allEntriesArr H = true) :
    ∀ kv ∈ H, ∀ be ∈ kv.2, ∀ e ∈ be.2, ∃ t, e = Json.arr t := by
  intro kv hkv be hbe e he
  have h1 := List.all_eq_true.mp h kv hkv
  have h2 := List.all_eq_true.mp h1 be hbe
  exact exists_arr_of_isArr e (List.all_eq_true.mp h2 e he)

theorem objLookup_entries (B : List (String × List Json)) (bid : String) :
    (objLookup (B.map fun be => (be.1, Json.arr be.2)) bid).getD (.arr []) =
      .arr (entriesFor B bid) := by
  induction B with
  | nil => rfl
  | cons be rest ih =>
    by_cases h : be.1 = bid
    · simp [objLookup, entriesFor, assocL, h]
    · simp only [List.map_cons, objLookup, if_neg h]
      rw [ih]
      simp only [entriesFor, assocL, if_neg h]

theorem keys_of_mapped (B : List (String × List Json)) :
    (B.map fun be => (be.1, Json.arr be.2)).map Prod.fst = B.map Prod.fst := by
  induction B <;> simp_all

theorem vals_of_histJson (H : List (String × List (String × List Json))) :
    (H.map fun kv => (kv.1, Json.obj (kv.2.map fun be => (be.1, Json.arr be.2)))).map
        Prod.snd =
      H.map fun kv => Json.obj (kv.2.map fun be => (be.1, Json.arr be.2)) := by
  induction H <;> simp_all

theorem mapM_pyKeys_histVals (H : List (String × List (String × List Json))) :
    (H.map fun kv => Json.obj (kv.2.map fun be => (be.1, Json.arr be.2))).mapM pyKeys =
      .ok (H.map fun kv => kv.2.map Prod.fst) := by
  induction H with
  | nil => rfl
  | cons kv rest ih =>
    rw [List.map_cons, List.mapM_cons]
    have ih' : List.mapM.loop pyKeys
        (rest.map fun kv => Json.obj (kv.2.map fun be => (be.1, Json.arr be.2))) [] =
        .ok (rest.map fun kv => kv.2.map Prod.fst) := ih
    simp [pyKeys, Bind.bind, Except.bind, ih', pure, Except.pure, keys_of_mapped]

theorem allBookmakerIds_histJson (CO : List (String × Json))
    (H : List (String × List (String × List Json))) :
    allBookmakerIds (.obj CO) (histJson H) =
      .ok (dedupKeys (CO.map Prod.fst ++ (H.map fun kv => kv.2.map Prod.fst).flatten)) := by
  by_cases hco : pyTruthy (.obj CO) = true
  · simp only [allBookmakerIds, histJson, pyValues, Bind.bind, Except.bind, if_pos hco,
      pyKeys, vals_of_histJson, mapM_pyKeys_histVals, pure, Except.pure]
  · have hnil : CO = [] := by
      cases CO with
      | nil => rfl
      | cons kv rest => simp [pyTruthy] at hco
    subst hnil
    simp only [allBookmakerIds, histJson, pyValues, Bind.bind, Except.bind, if_neg hco,
      vals_of_histJson, mapM_pyKeys_histVals, pure, Except.pure, List.map_nil,
      List.nil_append]

/-! ## Concrete sample inputs (from the specification's test vectors) -/

/-- The market data of the end-to-end scenario (§8): a 1X2 full-time back
market with three outcome ids, a current-odds snapshot for one bookmaker and
no history. -/
def sampleMarketData : Json := .obj [
  ("bettingTypeId", .num 1), ("scopeId", .num 2), ("handicapTypeId", .num 0),
  ("handicapValue", .num 0),
  ("outcomeId", .arr [.str "o1", .str "o2", .str "o3"]),
  ("odds", .obj [("b1", .obj [("0", .num 2.1), ("1", .num 3.2), ("2", .num 3.4)])]),
  ("volume", .obj []), ("changeTime", .obj []), ("history", .obj [])]

/-- The decrypted response of the end-to-end scenario (§8). -/
def c2Input : Json := .obj [("s", .num 1), ("d", .obj [
  ("bt", .num 1), ("sc", .num 2),
  ("oddsdata", .obj [
    ("back", .obj [("E-1-2-0-0-0", sampleMarketData)]),
    ("lay", .obj [])])])]

/-- One expected outcome of the end-to-end scenario. -/
def sampleOutcome (oid : String) (pos : Nat) (ty : String) (v : ℚ) : OutcomeItem :=
  { bookmaker_id := some "b1", bookmaker_name := some (.str "Bookmaker_b1"),
    outcome_id := some (.str oid), outcome_position := some pos, outcome_type := some ty,
    odds_history := [⟨some v, some 0, some 0⟩] }

/-- The market the market-collection stage builds from `sampleMarketData`.
Note `mixed_parameter_id` is unset: the source reads it from the (absent)
`mixedParameterId` data field and never from the market key. -/
def sampleMarket : MarketItem :=
  { betting_type_id := some 1
    betting_type_name := some (.str "Unknown_1")
    scope_id := some 2
    scope_name := some (.str "Unknown_2")
    handicap_type_id := some 0
    handicap_type_name := some (.str "No Handicap")
    handicap_value := some 0
    mixed_parameter_id := none
    mixed_parameter_name := none
    is_back := some true
    outcome_ids := [.str "o1", .str "o2", .str "o3"]
    outcomes := [sampleOutcome "o1" 0 "home" 2.1, sampleOutcome "o2" 1 "draw" 3.2,
      sampleOutcome "o3" 2 "away" 3.4] }

/-- A status-ok response whose single back-market key matches no
`E-...` pattern. -/
def c6Input : Json := .obj [("s", .num 1), ("d", .obj [
  ("oddsdata", .obj [
    ("back", .obj [("not-a-key", sampleMarketData)]),
    ("lay", .obj [])])])]

/-- The §8 lay-shape test vector: one outcome, one bookmaker, two
chronological points. -/
def c4ExampleH : List (String × List (String × List Json)) :=
  [("o1", [("b1", [.arr [.num 1.5, .num 100, .num 1000],
    .arr [.num 1.6, .num 50, .num 2000]])])]

/-- A history whose only entry is a malformed 2-element tuple. -/
def c9ExampleH : List (String × List (String × List Json)) :=
  [("o1", [("b1", [.arr [.num 1.5, .num 100]])])]

/-! ## Claim theorems -/

/-- C4: when `currentOdds` is absent (lay-market shape), the merge
(`_parse_outcomes`) emits, for every `(outcomeId, position)` pair in
`outcomeIds` and for every bookmaker present in the historical log for that
outcome id, exactly that bookmaker's raw history entries verbatim, in the
order supplied by the API, with no re-sorting by timestamp: the result
equals the specification-side `specLayOutcomes`, whose per-pair histories
are the raw entry lists taken unchanged and in order. -/
theorem c4_lay_merge_verbatim (P : ParserParams) (mdf : List (String × Json))
    (H : List (String × List (String × List Json))) (btidRaw : Option Json)
    (os : List Json) (co : Json)
    (hhist : objLookup mdf "history" = some (histJson H))
    (hHne : H.isEmpty = false)
    (hco : (objLookup mdf "odds").getD (.obj []) = co)
    (hcoF : pyTruthy co = false)
    (har : allEntriesArr H = true) :
    parseOutcomes P (.obj mdf) btidRaw (.arr os) =
      .ok (specLayOutcomes P.bookmaker_names btidRaw H os) := by
  have h1 : pyGetD (.obj mdf) "history" (.obj []) = .ok (histJson H) := by
    simp [pyGetD, hhist]
  have h2 : pyGetD (.obj mdf) "odds" (.obj []) = .ok co := by simp [pyGetD, hco]
  have hHt : pyTruthy (histJson H) = true := by
    cases H with
    | nil => simp at hHne
    | cons kv rest => rfl
  have henum : pyEnumerate (.arr os) = .ok (enumFrom 0 os) := rfl
  simp only [parseOutcomes, pyGetD, Bind.bind, Except.bind, hhist, hco, Option.getD_some,
    hcoF, hHt, henum, Bool.not_false, Bool.and_self, if_true]
  rw [layPosFold_eq P.bookmaker_names btidRaw H (allEntriesArr_spec H har) (enumFrom 0 os) []]
  simp [specLayOutcomes]

/-- Witness for C4 at the §8 lay-shape vector: the merge result for
`(b1, position 0)` is exactly the two historical points, in order. -/
theorem c4_lay_merge_verbatim_witness :
    objLookup [("history", histJson c4ExampleH)] "history" = some (histJson c4ExampleH)
    ∧ c4ExampleH.isEmpty = false
    ∧ (objLookup [("history", histJson c4ExampleH)] "odds").getD (.obj []) = .obj []
    ∧ pyTruthy (.obj []) = false
    ∧ allEntriesArr c4ExampleH = true
    ∧ parseOutcomes {} (.obj [("history", histJson c4ExampleH)]) (some (.num 1))
        (.arr [.str "o1"]) =
      .ok (specLayOutcomes [] (some (.num 1)) c4ExampleH [.str "o1"]) :=
  ⟨rfl, rfl, rfl, rfl, rfl,
    c4_lay_merge_verbatim {} [("history", histJson c4ExampleH)] c4ExampleH
      (some (.num 1)) [.str "o1"] (.obj []) rfl rfl rfl rfl rfl⟩

/-- C9 counterexample: the claim "the assembled result never contains an
Outcome with empty odds history" is false — a lay market whose only raw
entry is the 2-element tuple `[1.5, 100]` yields an Outcome whose
`odds_history` is empty (the malformed entry was dropped after the
outcome/bookmaker pair had already been accepted for emission). -/
theorem c9_counterexample :
    parseOutcomes {} (.obj [("history", histJson c9ExampleH)]) (some (.num 1))
        (.arr [.str "o1"]) =
      .ok [{ bookmaker_id := some "b1", bookmaker_name := some (.str "Bookmaker_b1"),
             outcome_id := some (.str "o1"), outcome_position := some 0,
             outcome_type := some "home", odds_history := [] }] := rfl

/-- C9 (amended): (a) every odds tuple with fewer than 3 elements is dropped
silently — `_parse_outcome` on a list of array entries succeeds and keeps
exactly the entries `oddsPointOfEntry` accepts, and `oddsPointOfEntry` maps
every tuple shorter than 3 to nothing; (b) an outcome/bookmaker pair whose
*merged raw history* is empty is omitted entirely (`backPairOutcome` yields
no outcome); however — unlike the claim's stronger reading — an Outcome with
empty converted history is still emitted when all of its merged entries are
malformed (see `c9_counterexample`). -/
theorem c9_malformed_dropped_empty_omitted :
    (∀ (bn : List (String × Json)) (bid : String) (oid : Json) (pos : Nat)
      (bt : Option Json) (es : List Json), es.isEmpty = false → es.all Json.isArr = true →
      parseOutcome bn bid oid pos bt (.arr es) =
        .ok (some (specLayOutcome bn bid oid pos bt es)))
    ∧ (∀ (e : Json) (t : List Json), e = Json.arr t → t.length < 3 →
        oddsPointOfEntry e = none)
    ∧ (∀ (bn : List (String × Json)) (hist bco bcv bct : Json) (bt : Option Json)
        (bid : String) (pos : Nat) (oid : Json),
        combinedOddsHistory hist bco bcv bct bid pos oid = .ok [] →
        backPairOutcome bn hist bco bcv bct bt bid pos oid = .ok none) := by
  refine ⟨?_, ?_, ?_⟩
  · intro bn bid oid pos bt es hemp har
    have hne : es ≠ [] := by
      intro h; subst h; simp at hemp
    exact parseOutcome_arr_eq bn bid oid pos bt es hne
      (fun e he => exists_arr_of_isArr e (List.all_eq_true.mp har e he))
  · intro e t he hlen
    subst he
    simp [oddsPointOfEntry, hlen]
  · intro bn hist bco bcv bct bt bid pos oid h
    by_cases ht : pyTruthy oid = true <;>
      simp [backPairOutcome, ht, h, Bind.bind, Except.bind, pure, Except.pure]

/-- Witness for C9 (amended): applied at the malformed 2-element tuple and at
an empty merge. -/
theorem c9_malformed_dropped_empty_omitted_witness :
    ([Json.arr [Json.num 1.5, Json.num 100]] : List Json).isEmpty = false
    ∧ ([Json.arr [Json.num 1.5, Json.num 100]] : List Json).all Json.isArr = true
    ∧ parseOutcome [] "b1" (.str "o1") 0 (some (.num 1))
        (.arr [Json.arr [Json.num 1.5, Json.num 100]]) =
      .ok (some (specLayOutcome [] "b1" (.str "o1") 0 (some (.num 1))
        [Json.arr [Json.num 1.5, Json.num 100]]))
    ∧ oddsPointOfEntry (Json.arr [Json.num 1.5, Json.num 100]) = none
    ∧ combinedOddsHistory (.obj []) (.obj []) (.obj []) (.obj []) "b1" 0 (.str "o1") = .ok []
    ∧ backPairOutcome [] (.obj []) (.obj []) (.obj []) (.obj []) (some (.num 1)) "b1" 0
        (.str "o1") = .ok none :=
  ⟨rfl, rfl,
    c9_malformed_dropped_empty_omitted.1 [] "b1" (.str "o1") 0 (some (.num 1))
      [Json.arr [Json.num 1.5, Json.num 100]] rfl rfl,
    c9_malformed_dropped_empty_omitted.2.1 (Json.arr [Json.num 1.5, Json.num 100])
      [Json.num 1.5, Json.num 100] rfl (by norm_num),
    rfl,
    c9_malformed_dropped_empty_omitted.2.2 [] (.obj []) (.obj []) (.obj []) (.obj [])
      (some (.num 1)) "b1" 0 (.str "o1") rfl⟩

/-- C8: `parse_match_event_odds` raises its status `ValueError`
(`InvalidResponseError`) exactly when the decrypted response's `s` field is
not (Python-)equal to `1` — including when it is absent — and the check runs
before anything else, so a failed check produces no aggregate at all (the
function returns nothing on any error path of the `Except` model). -/
theorem c8_status_check (P : ParserParams) (fs : List (String × Json)) (m : Option String) :
    parseMatchEventOdds P (.obj fs) m = .error .invalidResponseStatus ↔
      pyEqOne (objLookup fs "s") = false := by
  cases hs : pyEqOne (objLookup fs "s") with
  | false =>
    simp [parseMatchEventOdds, pyGetOpt, hs, Bind.bind, Except.bind]
  | true =>
    cases hd : (objLookup fs "d").getD (.obj []) <;>
      simp [parseMatchEventOdds, pyGetOpt, pyGetD, hs, hd, Bind.bind, Except.bind]

/-- Witness for C8: a response with `s = 2` fails the status check. -/
theorem c8_status_check_witness :
    pyEqOne (objLookup [("s", Json.num 2)] "s") = false
    ∧ parseMatchEventOdds {} (.obj [("s", Json.num 2)]) none =
        .error .invalidResponseStatus :=
  ⟨rfl, (c8_status_check {} [("s", Json.num 2)] none).mpr rfl⟩

/-- C2 counterexample: on the end-to-end scenario input the assembler does
not produce a `MatchEventOddsItem` at all — `load`ing the undeclared
`is_started` field raises `KeyError('is_started')` first. -/
theorem c2_counterexample :
    parseMatchEventOdds {} c2Input none = .error (.keyError "is_started") := rfl

/-- C2 (amended): `parse_match_event_odds` on the end-to-end input fails with
`KeyError('is_started')` (the parser adds an `is_started` value but
`MatchEventOddsItem` declares no such field), producing no aggregate; the
market-collection stage itself, run on the input's back collection, yields
exactly one back market with betting type 1, scope 2, handicap type 0,
handicap value 0.0 and `mixed_parameter_id` unset (never parsed from the
key), whose three outcomes are home/draw/away at positions 0/1/2 with one
odds point each of 2.1/3.2/3.4 — and the lay collection yields none. -/
theorem c2_end_to_end :
    parseMatchEventOdds {} c2Input none = .error (.keyError "is_started")
    ∧ collectMarkets {} [("E-1-2-0-0-0", sampleMarketData)] true = .ok [sampleMarket]
    ∧ collectMarkets {} [] false = .ok []
    ∧ sampleMarket.mixed_parameter_id = none := ⟨rfl, rfl, rfl, rfl⟩

/-- C6 counterexample: the claim that the assembler skips a
`(marketKey, marketData)` entry whose key does not parse, *without failing
the whole assembly*, is false — on a status-ok response whose only back
market key is `"not-a-key"` the whole assembly fails (and no key is ever
parsed: the failure is the `is_started` `KeyError`, before the market
loop). -/
theorem c6_counterexample :
    parseMatchEventOdds {} c6Input none = .error (.keyError "is_started") := rfl

/-- C6 (amended): the source contains no market-key parsing at all.  The
market loop reads only each entry's `marketData` — replacing every key
leaves its result unchanged, and an entry with an unparseable key is
*processed*, not skipped (third conjunct).  Moreover `parse_match_event_odds`
fails every status-ok assembly with `KeyError('is_started')` before even
reaching the market loop (second conjunct). -/
theorem c6_no_key_parsing :
    (∀ (P : ParserParams) (entries : List (String × Json)) (b : Bool),
      collectMarkets P entries b = collectMarkets P (entries.map fun kv => ("", kv.2)) b)
    ∧ (∀ (P : ParserParams) (fs : List (String × Json)) (m : Option String),
        pyEqOne (objLookup fs "s") = true →
        ((objLookup fs "d").getD (.obj [])).isObj = true →
        parseMatchEventOdds P (.obj fs) m = .error (.keyError "is_started"))
    ∧ collectMarkets {} [("not-a-key", sampleMarketData)] true = .ok [sampleMarket] := by
  refine ⟨?_, ?_, rfl⟩
  · intro P entries b
    have h : ∀ acc, entries.foldlM (marketStep P b) acc =
        (entries.map fun kv => ("", kv.2)).foldlM (marketStep P b) acc := by
      induction entries with
      | nil => intro acc; rfl
      | cons kv rest ih =>
        intro acc
        rw [List.map_cons, List.foldlM_cons, List.foldlM_cons]
        have hk : marketStep P b acc ("", kv.2) = marketStep P b acc kv := rfl
        rw [hk]
        cases hstep : marketStep P b acc kv with
        | error e => rfl
        | ok acc' =>
          show rest.foldlM (marketStep P b) acc' = _
          exact ih acc'
    exact h []
  · intro P fs m hs hobj
    cases hd : (objLookup fs "d").getD (.obj []) with
    | obj ds =>
      simp [parseMatchEventOdds, pyGetOpt, pyGetD, hs, hd, Bind.bind, Except.bind]
    | null => rw [hd] at hobj; simp [Json.isObj] at hobj
    | bool b' => rw [hd] at hobj; simp [Json.isObj] at hobj
    | num q => rw [hd] at hobj; simp [Json.isObj] at hobj
    | str s' => rw [hd] at hobj; simp [Json.isObj] at hobj
    | arr es => rw [hd] at hobj; simp [Json.isObj] at hobj

/-- Witness for C6 (amended): a status-ok response fails at `is_started`,
and renaming a market key changes nothing. -/
theorem c6_no_key_parsing_witness :
    pyEqOne (objLookup [("s", Json.num 1)] "s") = true
    ∧ ((objLookup [("s", Json.num 1)] "d").getD (.obj [])).isObj = true
    ∧ parseMatchEventOdds {} (.obj [("s", Json.num 1)]) none = .error (.keyError "is_started")
    ∧ collectMarkets {} [("k1", sampleMarketData)] true =
        collectMarkets {} [("", sampleMarketData)] true :=
  ⟨rfl, rfl, c6_no_key_parsing.2.1 {} [("s", Json.num 1)] none rfl rfl,
    c6_no_key_parsing.1 {} [("k1", sampleMarketData)] true⟩

/-- C3: in the back-market shape the merge considers exactly the union of
bookmaker ids appearing in `currentOdds` or the historical log (first
conjunct, as a set equality), and for each bookmaker and position the
per-pair point list is the outcome's historical entries for that bookmaker,
in API order, followed by the current-odds point when one exists at that
position (second and third conjuncts, covering an outcome id present or
absent in the log); `specCurrentPoint` accepts both positional encodings of
the snapshot (dict keyed by stringified index, or plain array). -/
theorem c3_back_merge :
    (∀ (CO : List (String × Json)) (H : List (String × List (String × List Json))),
      ∃ bl, allBookmakerIds (.obj CO) (histJson H) = .ok bl ∧
        ∀ bid, bid ∈ bl ↔ (bid ∈ CO.map Prod.fst ∨ ∃ kv ∈ H, bid ∈ kv.2.map Prod.fst))
    ∧ (∀ (H : List (String × List (String × List Json)))
        (B : List (String × List Json)) (bco bcv bct : Json) (bid : String) (pos : Nat)
        (os : String), assocL H os = some B →
        combinedOddsHistory (histJson H) bco bcv bct bid pos (.str os) =
          .ok (entriesFor B bid ++ specCurrentPoint bco bcv bct pos))
    ∧ (∀ (H : List (String × List (String × List Json))) (bco bcv bct : Json)
        (bid : String) (pos : Nat) (os : String), assocL H os = none →
        combinedOddsHistory (histJson H) bco bcv bct bid pos (.str os) =
          .ok (specCurrentPoint bco bcv bct pos)) := by
  refine ⟨?_, ?_, ?_⟩
  · intro CO H
    refine ⟨_, allBookmakerIds_histJson CO H, ?_⟩
    intro bid
    rw [mem_dedupKeys]
    have hfl : bid ∈ (H.map fun kv => kv.2.map Prod.fst).flatten ↔
        ∃ kv ∈ H, bid ∈ kv.2.map Prod.fst := by
      rw [List.mem_flatten]
      constructor
      · rintro ⟨l, hl, hb⟩
        obtain ⟨kv, hkv, rfl⟩ := List.mem_map.mp hl
        exact ⟨kv, hkv, hb⟩
      · rintro ⟨kv, hkv, hb⟩
        exact ⟨kv.2.map Prod.fst, List.mem_map.mpr ⟨kv, hkv, rfl⟩, hb⟩
    rw [List.mem_append, hfl]
  · intro H B bco bcv bct bid pos os hB
    have hmem : pyContains (histJson H) (.str os) = .ok true := by
      rw [histJson, pyContains_obj]
      show Except.ok ((objLookup (H.map fun kv =>
        (kv.1, Json.obj (kv.2.map fun be => (be.1, Json.arr be.2)))) os).isSome) = _
      rw [objLookup_histJson, hB]
      rfl
    have hgi : pyGetItem (histJson H) (.str os) =
        .ok (.obj (B.map fun be => (be.1, Json.arr be.2))) := by
      apply pyGetItem_obj_str
      rw [objLookup_histJson, hB]
      rfl
    simp only [combinedOddsHistory, hmem, Bind.bind, Except.bind, if_true, hgi, pyGetD,
      objLookup_entries, pyToIter]
    rw [← currentTriple_spec bco bcv bct pos]
    cases hct : currentTriple bco bcv bct pos with
    | none => simp [hct, pure, Except.pure]
    | some t =>
      obtain ⟨v, vol, ts⟩ := t
      simp [hct, pure, Except.pure]
  · intro H bco bcv bct bid pos os hB
    have hmem : pyContains (histJson H) (.str os) = .ok false := by
      rw [histJson, pyContains_obj]
      show Except.ok ((objLookup (H.map fun kv =>
        (kv.1, Json.obj (kv.2.map fun be => (be.1, Json.arr be.2)))) os).isSome) = _
      rw [objLookup_histJson, hB]
      rfl
    simp only [combinedOddsHistory, hmem, Bind.bind, Except.bind, Bool.false_eq_true,
      if_false]
    rw [← currentTriple_spec bco bcv bct pos]
    cases hct : currentTriple bco bcv bct pos with
    | none => simp [hct, pure, Except.pure]
    | some t =>
      obtain ⟨v, vol, ts⟩ := t
      simp [hct, pure, Except.pure]

/-- Witness for C3 at the §8 back-shape vector: history point then the
appended `(1.55, 30, 3000)` snapshot point, and the bookmaker union. -/
theorem c3_back_merge_witness :
    assocL [("o1", [("b1", [Json.arr [Json.num 1.5, Json.num 100, Json.num 1000]])])]
        "o1" = some [("b1", [Json.arr [Json.num 1.5, Json.num 100, Json.num 1000]])]
    ∧ combinedOddsHistory
        (histJson [("o1", [("b1", [Json.arr [Json.num 1.5, Json.num 100, Json.num 1000]])])])
        (.obj [("0", .num 1.55)]) (.obj [("0", .num 30)])
        (.obj [("0", .num 3000)]) "b1" 0 (.str "o1") =
      .ok (entriesFor [("b1", [Json.arr [Json.num 1.5, Json.num 100, Json.num 1000]])] "b1"
        ++ specCurrentPoint (.obj [("0", .num 1.55)]) (.obj [("0", .num 30)])
          (.obj [("0", .num 3000)]) 0)
    ∧ entriesFor [("b1", [Json.arr [Json.num 1.5, Json.num 100, Json.num 1000]])] "b1"
        ++ specCurrentPoint (.obj [("0", .num 1.55)]) (.obj [("0", .num 30)])
          (.obj [("0", .num 3000)]) 0 =
      [Json.arr [Json.num 1.5, Json.num 100, Json.num 1000],
       Json.arr [Json.num 1.55, Json.num 30, Json.num 3000]] := by
  refine ⟨rfl, ?_, rfl⟩
  exact c3_back_merge.2.1 [("o1", [("b1", [Json.arr [Json.num 1.5, Json.num 100, Json.num 1000]])])]
    [("b1", [Json.arr [Json.num 1.5, Json.num 100, Json.num 1000]])]
    (.obj [("0", .num 1.55)]) (.obj [("0", .num 30)])
    (.obj [("0", .num 3000)]) "b1" 0 "o1" rfl

theorem find3_lookup (a b c : String) (pos : Nat) :
    (([(0, a), (1, b), (2, c)] : List (Nat × String)).find? fun pv => pv.1 = pos) =
      (if pos = 0 then some (0, a) else if pos = 1 then some (1, b)
       else if pos = 2 then some (2, c) else none) := by
  rcases pos with _ | _ | _ | p <;> simp [List.find?]

/-- C5: outcome-type resolution agrees with the specification's static table
everywhere — the table entry when `(bettingTypeId, position)` is present,
the literal `outcome_<position>` otherwise — and, being total, never fails;
including the spec's sample points `resolve(1,0..2)`, `resolve(2,0..1)`, the
unknown-type fallback `resolve(99,0)` and the unknown-position fallback
`resolve(1,5)`. -/
theorem c5_outcome_resolution :
    (∀ (bt : Int) (pos : Nat),
      resolveOutcomeType (some (.num (bt : ℚ))) pos = specResolveOutcomeType bt pos)
    ∧ resolveOutcomeType (some (.num 1)) 0 = "home"
    ∧ resolveOutcomeType (some (.num 1)) 1 = "draw"
    ∧ resolveOutcomeType (some (.num 1)) 2 = "away"
    ∧ resolveOutcomeType (some (.num 2)) 0 = "under"
    ∧ resolveOutcomeType (some (.num 2)) 1 = "over"
    ∧ resolveOutcomeType (some (.num 99)) 0 = "outcome_0"
    ∧ resolveOutcomeType (some (.num 1)) 5 = "outcome_5" := by
  refine ⟨?_, rfl, rfl, rfl, rfl, rfl, rfl, rfl⟩
  intro bt pos
  have hkey : (fun kv : Int × List (Nat × String) =>
      pyIntKeyMatches (some (.num (bt : ℚ))) kv.1) = fun kv => decide (bt = kv.1) := by
    funext kv
    simp only [pyIntKeyMatches]
    exact decide_eq_decide.mpr Int.cast_inj
  simp only [resolveOutcomeType, OUTCOME_TYPE_MAP, hkey]
  by_cases h1 : bt = 1
  · subst h1; rcases pos with _ | _ | _ | p <;> norm_num [List.find?, specResolveOutcomeType]
    rw [if_neg (by omega)]
  by_cases h2 : bt = 2
  · subst h2; rcases pos with _ | _ | p <;> norm_num [List.find?, specResolveOutcomeType]
  by_cases h3 : bt = 3
  · subst h3; rcases pos with _ | _ | p <;> norm_num [List.find?, specResolveOutcomeType]
  by_cases h4 : bt = 4
  · subst h4; rcases pos with _ | _ | _ | p <;> norm_num [List.find?, specResolveOutcomeType]
    rw [if_neg (by omega)]
  by_cases h5 : bt = 5
  · subst h5; rcases pos with _ | _ | p <;> norm_num [List.find?, specResolveOutcomeType]
  by_cases h6 : bt = 6
  · subst h6; rcases pos with _ | _ | p <;> norm_num [List.find?, specResolveOutcomeType]
  by_cases h7 : bt = 7
  · subst h7; rcases pos with _ | _ | p <;> norm_num [List.find?, specResolveOutcomeType]
  by_cases h8 : bt = 8
  · subst h8; norm_num [List.find?, specResolveOutcomeType]
  by_cases h9 : bt = 9
  · subst h9; norm_num [List.find?, specResolveOutcomeType]
  by_cases h10 : bt = 10
  · subst h10; rcases pos with _ | _ | p <;> norm_num [List.find?, specResolveOutcomeType]
  by_cases h11 : bt = 11
  · subst h11; norm_num [List.find?, specResolveOutcomeType]
  by_cases h12 : bt = 12
  · subst h12; rcases pos with _ | _ | _ | p <;> norm_num [List.find?, specResolveOutcomeType]
    rw [if_neg (by omega)]
  by_cases h13 : bt = 13
  · subst h13; rcases pos with _ | _ | p <;> norm_num [List.find?, specResolveOutcomeType]
  norm_num [List.find?, specResolveOutcomeType, h1, h2, h3, h4, h5, h6, h7, h8, h9,
    h10, h11, h12, h13]

/-- Concrete primitives for the decryption witnesses: a 32-byte zero key, a
fixed 16-byte AES output `"{}"` plus valid PKCS#7 padding, and a JSON parse
accepting only `"{}"`. -/
def trivPrims : CryptoPrims :=
  { pbkdf2HmacSha256 := fun _ _ _ _ => List.replicate 32 0
    aesCbcDecrypt := fun _ _ _ => [123, 125] ++ List.replicate 14 14
    jsonParse := fun s => if s = "\x7b\x7d" then some (.obj []) else none }

/-- Concrete primitives whose AES output ends in a `0` byte. -/
def zeroPadPrims : CryptoPrims :=
  { pbkdf2HmacSha256 := fun _ _ _ _ => List.replicate 32 0
    aesCbcDecrypt := fun _ _ _ => [65, 0]
    jsonParse := fun _ => none }

/-- C1: for every well-formed payload (one whose pipeline stages all
succeed, with a 16-byte IV, block-aligned ciphertext, a 256-bit derived key
and a positive final pad byte), `decrypt_data_PBKDF2HMAC` returns exactly
the result of the specification's fixed pipeline `specDecrypt`:
base64-decode the payload to text, split on `':'`, hex-decode the IV,
base64-decode the ciphertext, derive the key by PBKDF2-HMAC-SHA256 over the
fixed `CRYPTO_PASSWORD`/`CRYPTO_SALT` constants with 1000 iterations and
256-bit length, AES-256-CBC-decrypt, strip as many trailing bytes as the
last byte's value, then UTF-8-decode and JSON-parse. -/
theorem c1_decrypt_pipeline (C : CryptoPrims) (payload dec a b : String)
    (iv ct padded : List Nat) (n : Nat) (txt : String) (j : Json)
    (h1 : decodePayloadToText payload = some dec)
    (h2 : pySplitColon dec = [a, b])
    (h3 : hexDecode b = some iv) (h4 : iv.length = 16)
    (h5 : b64decodeStr a = some ct) (h6 : ct.length % 16 = 0)
    (h7 : (C.pbkdf2HmacSha256 (utf8Encode CRYPTO_PASSWORD) (utf8Encode CRYPTO_SALT)
      1000 32).length = 32)
    (h8 : C.aesCbcDecrypt (C.pbkdf2HmacSha256 (utf8Encode CRYPTO_PASSWORD)
      (utf8Encode CRYPTO_SALT) 1000 32) iv ct = padded)
    (h9 : padded.getLast? = some n) (h10 : 0 < n)
    (h11 : utf8Decode (padded.take (padded.length - n)) = some txt)
    (h12 : C.jsonParse txt = some j) :
    decrypt_data_PBKDF2HMAC C payload = .ok j ∧ specDecrypt C payload = some j := by
  have hstrip : stripPad padded = some (padded.take (padded.length - n)) := by
    simp [stripPad, h9, if_neg (by omega : ¬ n = 0)]
  constructor
  · simp only [decrypt_data_PBKDF2HMAC, h1, h2, List.length_cons, List.length_nil,
      List.getD, h7]
    norm_num
    simp [h3, h5, h4, h6, h8, hstrip, h11, h12]
  · simp only [specDecrypt, h1, Bind.bind, Option.bind, h2, h3, h5, h8, h9, h11, h12]

/-- Witness for C1: a payload decoding to a 16-byte zero ciphertext and zero
IV, with `trivPrims` producing the plaintext object. -/
theorem c1_decrypt_pipeline_witness :
    decodePayloadToText
        "QUFBQUFBQUFBQUFBQUFBQUFBQUFBQT09OjAwMDAwMDAwMDAwMDAwMDAwMDAwMDAwMDAwMDAwMDAw" =
      some "AAAAAAAAAAAAAAAAAAAAAA==:00000000000000000000000000000000"
    ∧ pySplitColon "AAAAAAAAAAAAAAAAAAAAAA==:00000000000000000000000000000000" =
      ["AAAAAAAAAAAAAAAAAAAAAA==", "00000000000000000000000000000000"]
    ∧ decrypt_data_PBKDF2HMAC trivPrims
        "QUFBQUFBQUFBQUFBQUFBQUFBQUFBQT09OjAwMDAwMDAwMDAwMDAwMDAwMDAwMDAwMDAwMDAwMDAw" =
      .ok (.obj [])
    ∧ specDecrypt trivPrims
        "QUFBQUFBQUFBQUFBQUFBQUFBQUFBQT09OjAwMDAwMDAwMDAwMDAwMDAwMDAwMDAwMDAwMDAwMDAw" =
      some (.obj []) := by
  have h := c1_decrypt_pipeline trivPrims
    "QUFBQUFBQUFBQUFBQUFBQUFBQUFBQT09OjAwMDAwMDAwMDAwMDAwMDAwMDAwMDAwMDAwMDAwMDAw"
    "AAAAAAAAAAAAAAAAAAAAAA==:00000000000000000000000000000000"
    "AAAAAAAAAAAAAAAAAAAAAA==" "00000000000000000000000000000000"
    (List.replicate 16 0) (List.replicate 16 0) ([123, 125] ++ List.replicate 14 14)
    14 "\x7b\x7d" (.obj []) rfl rfl (by decide) (by decide) (by decide) (by decide)
    (by decide) rfl rfl (by decide) rfl rfl
  exact ⟨rfl, rfl, h.1, h.2⟩

/-- C7: `decrypt_data_PBKDF2HMAC` fails with the `FormatError` outcome (the
explicit `return None`) exactly on a payload whose decoded text does not
split on `':'` into two parts, and on a two-part split its result is the
single-error-kind collapse of the remaining pipeline: `ok` of the value when
every step succeeds and the one `DecryptError` outcome when any subsequent
step fails (bad hex, bad base64, bad key/IV/block length, bad padding byte,
bad UTF-8, bad JSON); the function is one straight-line pass with no
retries. -/
theorem c7_error_taxonomy (C : CryptoPrims) (payload dec : String)
    (h : decodePayloadToText payload = some dec) :
    ((pySplitColon dec).length ≠ 2 → decrypt_data_PBKDF2HMAC C payload = .formatError)
    ∧ (∀ a b, pySplitColon dec = [a, b] →
        decrypt_data_PBKDF2HMAC C payload =
          (match restPipeline C a b with
           | some j => .ok j
           | none => .decryptError)) := by
  constructor
  · intro hlen
    simp [decrypt_data_PBKDF2HMAC, h, hlen]
  · intro a b hsplit
    simp only [decrypt_data_PBKDF2HMAC, h, hsplit, List.length_cons, List.length_nil,
      List.getD, restPipeline]
    norm_num
    cases hex : hexDecode b with
    | none => simp [Option.bind]
    | some iv =>
      cases hct : b64decodeStr a with
      | none => simp [Option.bind]
      | some ct =>
        simp only [Option.bind]
        split_ifs
        all_goals try rfl
        cases hsp : stripPad (C.aesCbcDecrypt
            (C.pbkdf2HmacSha256 (utf8Encode CRYPTO_PASSWORD) (utf8Encode CRYPTO_SALT)
              1000 32) iv ct) with
        | none => simp [hsp]
        | some data =>
          simp only [hsp]
          cases hu : utf8Decode data with
          | none => simp [hu]
          | some txt =>
            simp only [hu]
            cases hj : C.jsonParse txt with
            | none => simp [hj]
            | some j => simp [hj]

/-- Witness for C7: a payload decoding to `"a:b:c"` (three parts) yields the
`FormatError` outcome, and one decoding to `"A:zz"` (bad hex) yields the
`DecryptError` outcome. -/
theorem c7_error_taxonomy_witness :
    decodePayloadToText "YTpiOmM=" = some "a:b:c"
    ∧ (pySplitColon "a:b:c").length ≠ 2
    ∧ decrypt_data_PBKDF2HMAC trivPrims "YTpiOmM=" = .formatError
    ∧ decodePayloadToText "QTp6eg==" = some "A:zz"
    ∧ pySplitColon "A:zz" = ["A", "zz"]
    ∧ decrypt_data_PBKDF2HMAC trivPrims "QTp6eg==" = .decryptError := by
  refine ⟨rfl, by decide, ?_, rfl, rfl, ?_⟩
  · exact (c7_error_taxonomy trivPrims "YTpiOmM=" "a:b:c" rfl).1 (by decide)
  · exact (c7_error_taxonomy trivPrims "QTp6eg==" "A:zz" rfl).2 "A" "zz" rfl

/-- C10: the padding strip removes exactly as many trailing bytes as the
value of the buffer's last byte, with no validation that those bytes form
PKCS#7 padding (`[65, 66, 2]` is stripped although `66 ≠ 2`); a last byte of
`0` makes `buf[:-0]`, i.e. the empty bytes, so the whole plaintext is
discarded instead of `0` being rejected — after which the pipeline's JSON
parse of the empty string fails and `decrypt_data_PBKDF2HMAC` returns the
`DecryptError` outcome. -/
theorem c10_padding_no_validation :
    (∀ (buf : List Nat) (n : Nat), buf.getLast? = some n → 0 < n →
      stripPad buf = some (buf.take (buf.length - n)))
    ∧ (∀ buf : List Nat, buf.getLast? = some 0 → stripPad buf = some [])
    ∧ stripPad [65, 66, 2] = some [65]
    ∧ (∀ (C : CryptoPrims) (payload dec a b : String) (iv ct : List Nat),
        decodePayloadToText payload = some dec → pySplitColon dec = [a, b] →
        hexDecode b = some iv → iv.length = 16 →
        b64decodeStr a = some ct → ct.length % 16 = 0 →
        (C.pbkdf2HmacSha256 (utf8Encode CRYPTO_PASSWORD) (utf8Encode CRYPTO_SALT)
          1000 32).length = 32 →
        (C.aesCbcDecrypt (C.pbkdf2HmacSha256 (utf8Encode CRYPTO_PASSWORD)
          (utf8Encode CRYPTO_SALT) 1000 32) iv ct).getLast? = some 0 →
        C.jsonParse "" = none →
        decrypt_data_PBKDF2HMAC C payload = .decryptError) := by
  refine ⟨?_, ?_, rfl, ?_⟩
  · intro buf n hlast hpos
    simp [stripPad, hlast, if_neg (by omega : ¬ n = 0)]
  · intro buf hlast
    simp [stripPad, hlast]
  · intro C payload dec a b iv ct h1 h2 h3 h4 h5 h6 h7 h8 h9
    have hstrip : stripPad (C.aesCbcDecrypt (C.pbkdf2HmacSha256
        (utf8Encode CRYPTO_PASSWORD) (utf8Encode CRYPTO_SALT) 1000 32) iv ct) =
        some [] := by
      simp [stripPad, h8]
    simp only [decrypt_data_PBKDF2HMAC, h1, h2, List.length_cons, List.length_nil,
      List.getD, h7]
    norm_num
    have hu : utf8Decode [] = some "" := rfl
    simp [h3, h5, h4, h6, hstrip, hu, h9]

/-- Witness for C10: valid-looking buffers stripped by their last byte, the
non-PKCS#7 buffer stripped anyway, and a full decryption discarding its
whole plaintext on a zero pad byte. -/
theorem c10_padding_no_validation_witness :
    stripPad [7, 7, 2] = some [7]
    ∧ stripPad [5, 0] = some []
    ∧ decrypt_data_PBKDF2HMAC zeroPadPrims
        "OjAwMDAwMDAwMDAwMDAwMDAwMDAwMDAwMDAwMDAwMDAw" = .decryptError := by
  refine ⟨?_, ?_, ?_⟩
  · exact c10_padding_no_validation.1 [7, 7, 2] 2 rfl (by decide)
  · exact c10_padding_no_validation.2.1 [5, 0] rfl
  · exact c10_padding_no_validation.2.2.2 zeroPadPrims
      "OjAwMDAwMDAwMDAwMDAwMDAwMDAwMDAwMDAwMDAwMDAw"
      ":00000000000000000000000000000000" "" "00000000000000000000000000000000"
      (List.replicate 16 0) [] rfl rfl (by decide) (by decide) (by decide) (by decide)
      (by decide) rfl rfl

end OddsPortal
